import Mathlib

/-!
Verification development for the scoring-and-selection core of the
`llm-inference-lb` request router.

The Python source is shallowly embedded over `ℚ`.  Transcendental leaf
functions of the `math` module (`sqrt`, `tanh`, `log2`, `log`, `exp`,
float `**`) have no computable rational counterpart; they are passed in
as an explicit `RealOps` record, so every definition stays executable
and every theorem quantifies over the interpretation of those leaves.
All structure (branching, normalisation pipelines, weight adjustment,
clamping, list handling) is translated directly from the source files
`core/models.py`, `core/scheduler.py`, `core/score_calculator.py`,
`core/metrics_collector.py`, `main.py`.
-/

namespace Sched

/-- Interpretation of the transcendental functions used by
`core/score_calculator.py` (`math.sqrt`, `math.tanh`, `math.log2`,
`math.log`, `math.exp`, and the float power operator). -/
structure RealOps where
  sqrt : ℚ → ℚ
  tanh : ℚ → ℚ
  log2 : ℚ → ℚ
  logE : ℚ → ℚ
  expE : ℚ → ℚ
  powf : ℚ → ℚ → ℚ
deriving Inhabited

/-- A member's metrics dictionary.  The collector only ever stores the
three keys `waiting_queue`, `cache_usage`, `running_req`
(`metrics_collector.py::_parse_metrics`), so the dict is modelled as a
record of three optional values; the empty dict is the all-`none`
record. -/
structure Metrics where
  waiting_queue : Option ℚ
  cache_usage : Option ℚ
  running_req : Option ℚ
deriving DecidableEq, Repr

def Metrics.empty : Metrics := ⟨none, none, none⟩

/-- `core/models.py::PoolMember`. -/
structure PoolMember where
  ip : String
  port : Int
  partition : String
  metrics : Metrics
  score : ℚ
deriving DecidableEq, Repr

/-- `PoolMember.__init__`: fresh members start with empty metrics and the
small strictly positive initial score `0.001`. -/
def mkPoolMember (ip : String) (port : Int) (partition : String) : PoolMember :=
  { ip := ip, port := port, partition := partition
    metrics := Metrics.empty, score := 1/1000 }

/-! String helpers.  The Lean standard-library string functions hide
well-founded recursion that the kernel cannot evaluate, so splitting,
trimming and number rendering are implemented structurally on character
lists. -/

def natDigitsAux : ℕ → ℕ → List Char
  | 0, _ => []
  | fuel + 1, n =>
    if n = 0 then [] else natDigitsAux fuel (n / 10) ++ [Char.ofNat (48 + n % 10)]

def natToChars (n : ℕ) : List Char :=
  if n = 0 then ['0'] else natDigitsAux (n + 1) n

/-- Decimal rendering of a Python `int`. -/
def intToStr (i : Int) : String :=
  match i with
  | .ofNat n => String.mk (natToChars n)
  | .negSucc n => String.mk ('-' :: natToChars (n + 1))

/-- `str.split(sep)` semantics on characters (e.g. `":" ↦ ["", ""]`). -/
def splitOnChar (sep : Char) : List Char → List (List Char)
  | [] => [[]]
  | c :: cs =>
    if c == sep then [] :: splitOnChar sep cs
    else
      match splitOnChar sep cs with
      | [] => [[c]]
      | p :: ps => (c :: p) :: ps

def intercalateChar (sep : Char) : List (List Char) → List Char
  | [] => []
  | [p] => p
  | p :: ps => p ++ sep :: intercalateChar sep ps

/-- `str.strip()` (ASCII whitespace). -/
def trimChars (cs : List Char) : List Char :=
  ((cs.dropWhile (·.isWhitespace)).reverse.dropWhile (·.isWhitespace)).reverse

def charsToNat? (cs : List Char) : Option ℕ :=
  if cs.isEmpty then none
  else if cs.all (·.isDigit) then some (cs.foldl (fun a c => a * 10 + (c.toNat - 48)) 0)
  else none

/-- Python's `int(s)` on the strings that occur here: an optional sign
followed by decimal digits (surrounding whitespace and underscores,
which `int` also tolerates, do not occur in the inputs concerned). -/
def charsToInt? (cs : List Char) : Option Int :=
  match cs with
  | '-' :: rest => (charsToNat? rest).map (fun n => -(n : Int))
  | '+' :: rest => (charsToNat? rest).map (fun n => (n : Int))
  | _ => (charsToNat? cs).map (fun n => (n : Int))

/-- `str(member)` / the `f"{ip}:{port}"` keys used throughout the source. -/
def memberKey (m : PoolMember) : String := m.ip ++ ":" ++ intToStr m.port

/-- `core/models.py::EngineType`. -/
inductive EngineType
  | vllm
  | sglang
deriving DecidableEq, Repr

/-- `core/models.py::Pool`. -/
structure Pool where
  name : String
  partition : String
  engine_type : EngineType
  members : List PoolMember
  consecutive_failures : ℕ
  pool_fallback : Bool
  member_running_req_threshold : Option ℚ
  member_waiting_queue_threshold : Option ℚ
deriving DecidableEq, Repr

/-- `Pool.__init__` with all optional arguments left at their Python
defaults, exactly as called by `main.py::_fetch_all_pools` when a pool is
first created (`Pool(name=..., partition=..., engine_type=...,
members=new_members)`). -/
def poolFromFetch (name partition : String) (et : EngineType)
    (members : List PoolMember) : Pool :=
  { name := name, partition := partition, engine_type := et
    members := members, consecutive_failures := 0
    pool_fallback := false
    member_running_req_threshold := none
    member_waiting_queue_threshold := none }

/-- The statistics dictionary returned by `Pool.update_members_smartly`. -/
structure UpdateStats where
  preserved : Int
  added : Int
  removed : Int
  total : Int
deriving DecidableEq, Repr

/-- Lookup in the `existing_members_map` dict of
`Pool.update_members_smartly`: the dict is built by inserting the old
members in order, so a duplicated key holds the last member carrying it. -/
def dictLookupLast (ms : List PoolMember) (k : String) : Option PoolMember :=
  ms.reverse.find? (fun m => memberKey m == k)

/-- The reconciliation loop of `Pool.update_members_smartly`: each new
member whose `(ip, port)` key exists in the old map keeps the old score
and metrics; others are kept as constructed. -/
def reconcileMembers (old new : List PoolMember) : List PoolMember :=
  new.map (fun n =>
    match dictLookupLast old (memberKey n) with
    | some o => { n with score := o.score, metrics := o.metrics }
    | none => n)

/-- `core/models.py::Pool.update_members_smartly`. -/
def update_members_smartly (pool : Pool) (new_members : List PoolMember) :
    Pool × UpdateStats :=
  let updated := reconcileMembers pool.members new_members
  let old_count : Int := pool.members.length
  let new_count : Int := updated.length
  let preserved : Int :=
    (updated.filter (fun n => (dictLookupLast pool.members (memberKey n)).isSome)).length
  ({ pool with members := updated },
   { preserved := preserved, added := new_count - preserved
     removed := old_count - preserved, total := new_count })

/-- The member list produced by a membership refresh. -/
def refreshedMembers (pool : Pool) (new_members : List PoolMember) : List PoolMember :=
  (update_members_smartly pool new_members).1.members

/-! ### Small numeric list helpers

Python's `min` / `max` on a non-empty list; the empty case never occurs
in any call path and is mapped to `0`. -/

def listMin (l : List ℚ) : ℚ :=
  match l with
  | [] => 0
  | h :: t => t.foldl min h

def listMax (l : List ℚ) : ℚ :=
  match l with
  | [] => 0
  | h :: t => t.foldl max h

/-- `max(0.0, min(1.0, x))`, the clamp applied by the score algorithms. -/
def clamp01 (x : ℚ) : ℚ := max 0 (min 1 x)

/-! ### Normaliser library (`core/score_calculator.py`) -/

/-- `_min_max_normalize`. -/
def min_max_normalize (values : List ℚ) : List ℚ :=
  if values.isEmpty then []
  else if values.length = 1 then [0]
  else
    let min_val := listMin values
    let max_val := listMax values
    if max_val = min_val then List.replicate values.length 0
    else values.map (fun v => (v - min_val) / (max_val - min_val))

/-- `_relative_ratio_normalize`. -/
def relative_ratio_normalize (ops : RealOps) (values : List ℚ) : List ℚ :=
  if values.isEmpty then []
  else if values.length = 1 then [1/2]
  else
    let m0 := listMin values
    let min_val :=
      if m0 = 0 then listMin ((values.filter (fun v => decide (0 < v))) ++ [1/1000])
      else m0
    let ratios := values.map (fun v => v / min_val)
    let max_ratio := listMax ratios
    if 1 < max_ratio then
      ratios.map (fun r => ops.logE r / ops.logE max_ratio)
    else List.replicate values.length 0

/-- `_exponential_difference_normalize` (the `base` parameter defaults to
`2.0` in the source). -/
def exponential_difference_normalize (ops : RealOps) (base : ℚ)
    (values : List ℚ) : List ℚ :=
  if values.isEmpty then []
  else if values.length = 1 then [1/2]
  else
    let mean_val := values.sum / (values.length : ℚ)
    if mean_val = 0 then List.replicate values.length 0
    else
      let devs := values.map (fun v => (v - mean_val) / mean_val)
      let exps := devs.map (fun d => ops.powf base d)
      let min_exp := listMin exps
      let max_exp := listMax exps
      if max_exp = min_exp then List.replicate values.length (1/2)
      else exps.map (fun e => (e - min_exp) / (max_exp - min_exp))

/-- `_sigmoid_difference_normalize` (the `sensitivity` parameter defaults
to `5.0`). -/
def sigmoid_difference_normalize (ops : RealOps) (sensitivity : ℚ)
    (values : List ℚ) : List ℚ :=
  if values.isEmpty then []
  else if values.length = 1 then [1/2]
  else
    let mean_val := values.sum / (values.length : ℚ)
    let variance := (values.map (fun x => (x - mean_val)^2)).sum / (values.length : ℚ)
    let std_dev := if 0 < variance then ops.sqrt variance else 1
    values.map (fun v =>
      let z := if 0 < std_dev then (v - mean_val) / std_dev else 0
      1 / (1 + ops.expE (-(z * sensitivity))))

/-- `_adaptive_cache_normalize`. -/
def adaptive_cache_normalize (ops : RealOps) (values : List ℚ) : List ℚ :=
  if values.isEmpty then []
  else if values.length = 1 then [1/2]
  else
    let min_val := listMin values
    let max_val := listMax values
    if max_val = min_val then List.replicate values.length (1/2)
    else if 0 < min_val then
      let ratios := values.map (fun v => v / min_val)
      let sqrt_ratios := ratios.map ops.sqrt
      let max_sqrt := listMax sqrt_ratios
      sqrt_ratios.map (fun s =>
        let nv := if 1 < max_sqrt then 1/10 + 9/10 * ((s - 1) / (max_sqrt - 1))
                  else 11/20
        min 1 (max 0 nv))
    else min_max_normalize values

/-- `_precise_cache_normalize`. -/
def precise_cache_normalize (ops : RealOps) (values : List ℚ) : List ℚ :=
  if values.isEmpty then []
  else if values.length = 1 then [1/2]
  else
    let min_val := listMin values
    let max_val := listMax values
    if max_val = min_val then List.replicate values.length (1/2)
    else
      let strategy2 :=
        let mean_val := values.sum / (values.length : ℚ)
        let variance := (values.map (fun x => (x - mean_val)^2)).sum / (values.length : ℚ)
        let std_dev := if 0 < variance then ops.sqrt variance else 1
        values.map (fun v =>
          let z := if 0 < std_dev then (v - mean_val) / (std_dev * 3) else 0
          let sig := 1 / (1 + ops.expE (-(z * 2)))
          1/5 + 4/5 * sig)
      if 0 < min_val then
        let log_ratios := values.map (fun v => ops.log2 (v / min_val))
        let max_log := listMax log_ratios
        if 0 < max_log then
          log_ratios.map (fun lr => 1/5 + 4/5 * (lr / max_log))
        else strategy2
      else strategy2

/-- `_precise_running_normalize`. -/
def precise_running_normalize (ops : RealOps) (values : List ℚ) : List ℚ :=
  if values.isEmpty then []
  else if values.length = 1 then [1/2]
  else
    let min_val := listMin values
    let max_val := listMax values
    if max_val = min_val then List.replicate values.length (1/2)
    else
      let strategy2 :=
        let mean_val := values.sum / (values.length : ℚ)
        let variance := (values.map (fun x => (x - mean_val)^2)).sum / (values.length : ℚ)
        let std_dev := if 0 < variance then ops.sqrt variance else 1
        values.map (fun v =>
          let z := if 0 < std_dev then (v - mean_val) / (std_dev * 3) else 0
          let sig := 1 / (1 + ops.expE (-(z * 2)))
          3/20 + 4/5 * sig)
      if 0 ≤ min_val then
        let adjusted := values.map (fun v => v + 1)
        let min_adj := listMin adjusted
        let log_ratios := adjusted.map (fun v => ops.log2 (v / min_adj))
        let max_log := listMax log_ratios
        if 0 < max_log then
          log_ratios.map (fun lr => 3/20 + 4/5 * (lr / max_log))
        else strategy2
      else strategy2

/-- `_ratio_based_normalize`. -/
def ratio_based_normalize (values : List ℚ) : List ℚ :=
  match values with
  | [] => []
  | [_] => [1/2]
  | [v1, v2] =>
    if v1 = v2 then [1/2, 1/2]
    else if 0 < min v1 v2 then
      if v2 < v1 then
        let r := v1 / v2
        [r / (r + 1), 1 / (r + 1)]
      else
        let r := v2 / v1
        [1 / (r + 1), r / (r + 1)]
    else min_max_normalize [v1, v2]
  | vs => min_max_normalize vs

/-- `_smooth_normalize`. -/
def smooth_normalize (values : List ℚ) : List ℚ :=
  if values.isEmpty ∨ values.length ≤ 1 then List.replicate values.length (1/2)
  else
    let min_val := listMin values
    let max_val := listMax values
    if max_val = min_val then List.replicate values.length (1/2)
    else
      let relative_diff :=
        if 0 < min_val then (max_val - min_val) / min_val else max_val - min_val
      let rng : ℚ × ℚ :=
        if relative_diff < 1/10 then (9/20, 11/20)
        else if relative_diff < 3/10 then (7/20, 13/20)
        else if relative_diff < 4/5 then (1/4, 3/4)
        else if relative_diff < 2 then (3/20, 17/20)
        else (1/20, 19/20)
      values.map (fun v =>
        rng.1 + (v - min_val) / (max_val - min_val) * (rng.2 - rng.1))

/-! Stable argsort: Python's `sorted(range(n), key=lambda i: values[i])`
is stable, i.e. it orders indices lexicographically by `(value, index)`. -/

def insertPair (x : ℚ × ℕ) : List (ℚ × ℕ) → List (ℚ × ℕ)
  | [] => [x]
  | y :: ys =>
    if x.1 < y.1 ∨ (x.1 = y.1 ∧ x.2 < y.2) then x :: y :: ys
    else y :: insertPair x ys

def argsortStable (values : List ℚ) : List ℕ :=
  ((values.enum.map (fun p => (p.2, p.1))).foldr insertPair []).map (·.2)

/-- `_rank_based_normalize`. -/
def rank_based_normalize (values : List ℚ) (output_range : ℚ × ℚ) : List ℚ :=
  if values.isEmpty then []
  else if values.length = 1 then [1/2]
  else
    let si := argsortStable values
    let ranks := (List.range values.length).map (fun i => si.indexOf i)
    let max_rank : ℚ := (values.length : ℚ) - 1
    ranks.map (fun r =>
      if 0 < max_rank then
        output_range.1 + ((r : ℚ) / max_rank) * (output_range.2 - output_range.1)
      else (output_range.1 + output_range.2) / 2)

/-- Body of `_adaptive_distribution_normalize` after the
`waiting_queue` log-transform branch (which re-enters the function with
`metric_type = "general"`) has been resolved.  The skewness statistic of
the source is computed only for a debug log and is omitted. -/
def adnCore (ops : RealOps) (values : List ℚ) (metric_type : String) : List ℚ :=
  if values.isEmpty ∨ values.length ≤ 1 then List.replicate values.length (1/2)
  else
    let n : ℚ := values.length
    let mean_val := values.sum / n
    let variance := (values.map (fun x => (x - mean_val)^2)).sum / n
    let std_dev := if 0 < variance then ops.sqrt variance else 1/1000000
    let cv := if 1/1000000 < |mean_val| then std_dev / |mean_val| else std_dev
    let sr : ℚ × ℚ × ℚ :=
      if cv < 1/10 then (3, 2/5, 3/5)
      else if cv < 3/10 then (2, 1/4, 3/4)
      else if cv < 4/5 then (3/2, 3/20, 17/20)
      else (1, 1/10, 9/10)
    let sr2 : ℚ × ℚ × ℚ :=
      if metric_type = "cache_usage" then
        let s := sr.1 * (3/2)
        if cv < 1/5 then (s, 7/20, 13/20) else (s, sr.2.1, sr.2.2)
      else sr
    let sensitivity := sr2.1
    let output_min := sr2.2.1
    let output_max := sr2.2.2
    let range_span := output_max - output_min
    let normalized := values.map (fun v =>
      let z := if 1/1000000 < std_dev then (v - mean_val) / std_dev else 0
      let sig := ops.tanh (z * sensitivity / 2) * (1/2) + 1/2
      clamp01 (output_min + sig * range_span))
    if argsortStable values = argsortStable normalized then normalized
    else rank_based_normalize values (output_min, output_max)

/-- `_adaptive_distribution_normalize`.  The `waiting_queue` branch
log-transforms the values (`math.log(max(1, x + 1))`) and recurses once
with `metric_type = "general"`; the recursion is unfolded into a call of
`adnCore`, which repeats the leading length guard exactly as the
recursive call would. -/
def adaptive_distribution_normalize (ops : RealOps) (values : List ℚ)
    (metric_type : String) : List ℚ :=
  if values.isEmpty ∨ values.length ≤ 1 then List.replicate values.length (1/2)
  else if metric_type = "waiting_queue" ∧ 10 * listMin values < listMax values
      ∧ 0 ≤ listMin values then
    adnCore ops (values.map (fun x => ops.logE (max 1 (x + 1)))) "general"
  else adnCore ops values metric_type

/-! ### Weighted random selector (`core/scheduler.py::WeightedRandomSelector`)

The uniform draw `random.uniform(0, 1)` and the `random.choice` fallback
are modelled as explicit parameters `u` / `pick`, so the selector is a
deterministic function of its random inputs. -/

/-- The member-walk of `_weighted_random_choice`: the interval of a
non-final member is half-open `[cum, cum + score)`, the final member
additionally accepts the right endpoint (`random_point <= interval_end`).
`none` corresponds to falling off the end of the loop. -/
def choiceGo (random_point : ℚ) (cum : ℚ) : List PoolMember → Option PoolMember
  | [] => none
  | [m] => if random_point ≤ cum + m.score then some m else none
  | m :: m2 :: rest =>
    if cum ≤ random_point ∧ random_point < cum + m.score then some m
    else choiceGo random_point (cum + m.score) (m2 :: rest)

/-- `WeightedRandomSelector._weighted_random_choice`.  `pick` stands for
the `random.choice` fallback taken when the total weight is non-positive
(unreachable from `select`, which only passes members of positive
score); `u` is the uniform draw in `[0, 1)`. -/
def weighted_random_choice (pick : List PoolMember → Option PoolMember)
    (u : ℚ) (members : List PoolMember) : Option PoolMember :=
  let total_weight := (members.map (·.score)).sum
  if total_weight ≤ 0 then pick members
  else
    let random_point := u * total_weight
    match choiceGo random_point 0 members with
    | some m => some m
    | none => members.getLast?

/-- `WeightedRandomSelector.select`. -/
def select (pick : List PoolMember → Option PoolMember) (u : ℚ)
    (members : List PoolMember) : Option PoolMember :=
  if members.isEmpty then none
  else
    let valid := members.filter (fun m => decide (0 < m.score))
    if valid.isEmpty then none
    else if valid.length = 1 then valid.head?
    else weighted_random_choice pick u valid

/-- The selection behaviour as worded by the specification: drop members
with `score ≤ 0`; none left → no member; exactly one → that member;
otherwise draw `t = u·W` and take the first member in list order whose
cumulative interval satisfies `C_(k-1) ≤ t < C_k`, the last member also
being taken when `t = W`. -/
def cumIntervals (cum : ℚ) : List PoolMember → List (PoolMember × ℚ × ℚ)
  | [] => []
  | m :: rest => (m, cum, cum + m.score) :: cumIntervals (cum + m.score) rest

/-- Membership of the point `t` in a member's cumulative interval
`[C_(k-1), C_k)`. -/
def intervalHit (t : ℚ) (x : PoolMember × ℚ × ℚ) : Bool :=
  decide (x.2.1 ≤ t ∧ t < x.2.2)

def selectSpec (u : ℚ) (members : List PoolMember) : Option PoolMember :=
  let valid := members.filter (fun m => decide (0 < m.score))
  match valid with
  | [] => none
  | [m] => some m
  | _ =>
    let w := (valid.map (·.score)).sum
    let t := u * w
    match (cumIntervals 0 valid).find? (intervalHit t) with
    | some x => some x.1
    | none => if t = w then valid.getLast? else none

/-! ### Selection front-end (`core/scheduler.py::Scheduler`) -/

/-- `Scheduler._parse_candidate_members` on one `"ip:port"` string:
empty strings and strings without `:` are skipped, the port is the part
after the last `:` parsed as an integer (skip on parse failure). -/
def parseCandidate (s : String) : Option (String × Int) :=
  let cs := s.toList
  if cs.isEmpty then none
  else if ¬ (cs.contains ':') then none
  else
    let parts := splitOnChar ':' cs
    let ip := String.mk (intercalateChar ':' parts.dropLast)
    match charsToInt? ((parts.getLast?).getD []) with
    | some p => some (ip, p)
    | none => none

def parse_candidate_members (candidate_members : List String) : List (String × Int) :=
  candidate_members.filterMap parseCandidate

/-- `Scheduler._get_intersection`: pool members whose `(ip, port)`
appears in the candidate set, in pool order. -/
def get_intersection (pool : Pool) (candidates : List (String × Int)) :
    List PoolMember :=
  pool.members.filter (fun m => decide ((m.ip, m.port) ∈ candidates))

/-- The `POOLS` registry of `core/models.py`, keyed by `"name:partition"`
(`get_pool_by_key`). -/
def get_pool_by_key (pools : List (String × Pool)) (pool_name partition : String) :
    Option Pool :=
  (pools.find? (fun kv => kv.1 == pool_name ++ ":" ++ partition)).map (·.2)

/-- `Scheduler._do_select_optimal_member`: look up the pool, parse the
candidates, intersect, run the weighted selector, and render the chosen
member as `"ip:port"`. -/
def do_select_optimal_member (pick : List PoolMember → Option PoolMember)
    (u : ℚ) (pools : List (String × Pool)) (pool_name partition : String)
    (candidate_members : List String) : Option String :=
  match get_pool_by_key pools pool_name partition with
  | none => none
  | some pool =>
    let candidates := parse_candidate_members candidate_members
    if candidates.isEmpty then none
    else
      let intersection := get_intersection pool candidates
      if intersection.isEmpty then none
      else
        match select pick u intersection with
        | some m => some (memberKey m)
        | none => none

/-! ### Fetch-failure classification (`main.py::SchedulerApp._analyze_fetch_failure`) -/

/-- The exception taxonomy relevant to `_analyze_fetch_failure`.  In
`utils/exceptions.py`, `TokenAuthenticationError` is declared as a
subclass of `F5ApiError`, so `isinstance(e, F5ApiError)` is true for
both `f5Api` and `tokenAuth`. -/
inductive FetchExc
  | clientError (msg : String)
  | f5Api (msg : String)
  | tokenAuth (msg : String)
  | unknownExc (msg : String)
deriving DecidableEq, Repr

def startsWithChars : List Char → List Char → Bool
  | [], _ => true
  | _ :: _, [] => false
  | p :: ps, c :: cs => p == c && startsWithChars ps cs

def containsChars (needle : List Char) : List Char → Bool
  | [] => needle.isEmpty
  | c :: cs => startsWithChars needle (c :: cs) || containsChars needle cs

/-- Python's `needle in s` substring test. -/
def containsSubstr (s needle : String) : Bool :=
  containsChars needle.toList s.toList

/-- Python's `str.lower()` (ASCII suffices for the messages involved). -/
def lowerStr (s : String) : String := String.mk (s.toList.map Char.toLower)

/-- `SchedulerApp._analyze_fetch_failure`, translated branch for branch;
the result is `(failure_type, should_count_failure)`. -/
def analyze_fetch_failure (e : FetchExc) : String × Bool :=
  let isClientError := match e with | .clientError _ => true | _ => false
  let isF5Api := match e with | .f5Api _ => true | .tokenAuth _ => true | _ => false
  let isTokenAuth := match e with | .tokenAuth _ => true | _ => false
  let msg := match e with
    | .clientError m => m | .f5Api m => m | .tokenAuth m => m | .unknownExc m => m
  if isClientError then
    if containsSubstr (lowerStr msg) "timeout" then ("Network timeout", true)
    else ("Network connection error", false)
  else if isF5Api then
    let em := lowerStr msg
    if containsSubstr em "404" then ("Pool does not exist (404)", true)
    else if containsSubstr em "401" || containsSubstr em "403" then
      ("Authentication failed", false)
    else if containsSubstr em "500" || containsSubstr em "502"
        || containsSubstr em "503" then ("F5 server error", false)
    else ("F5 API error", true)
  else if isTokenAuth then ("Token authentication failed", false)
  else ("Unknown error", true)

/-- The status-code cascade applied to the message of an `F5ApiError`,
as a standalone classification table (used to state what the classifier
actually does, token errors included). -/
def apiMsgClassify (msg : String) : String × Bool :=
  let em := lowerStr msg
  if containsSubstr em "404" then ("Pool does not exist (404)", true)
  else if containsSubstr em "401" || containsSubstr em "403" then
    ("Authentication failed", false)
  else if containsSubstr em "500" || containsSubstr em "502"
      || containsSubstr em "503" then ("F5 server error", false)
  else ("F5 API error", true)

/-! ### Prometheus parsing (`core/metrics_collector.py`) -/

/-- `core/models.py::ENGINE_METRICS` metric names. -/
def engineWaitingName : EngineType → String
  | .vllm => "vllm:num_requests_waiting"
  | .sglang => "sglang:num_queue_reqs"

def engineCacheName : EngineType → String
  | .vllm => "vllm:gpu_cache_usage_perc"
  | .sglang => "sglang:token_usage"

def engineRunningName : EngineType → String
  | .vllm => "vllm:num_requests_running"
  | .sglang => "sglang:num_running_reqs"

/-- The character class `[0-9.-]` of the value capture group. -/
def isValueChar (c : Char) : Bool := c.isDigit || c == '.' || c == '-'

def digitsToNat (ds : List Char) : ℕ :=
  ds.foldl (fun a c => a * 10 + (c.toNat - 48)) 0

/-- Python's `float(s)` restricted to strings over `[0-9.-]` (the only
strings the capture group can produce): an optional leading `-`, then
digits with at most one `.` and at least one digit. -/
def parseFloatQ (s : String) : Option ℚ :=
  let cs := s.toList
  let neg := cs.head? == some '-'
  let body := if neg then cs.tail else cs
  if body.isEmpty then none
  else if body.any (fun c => !(c.isDigit || c == '.')) then none
  else
    let ipart := body.takeWhile (·.isDigit)
    let rest := body.drop ipart.length
    match rest with
    | [] =>
      some (if neg then -(digitsToNat ipart : ℚ) else (digitsToNat ipart : ℚ))
    | '.' :: frac =>
      if frac.any (fun c => !c.isDigit) then none
      else if ipart.isEmpty && frac.isEmpty then none
      else
        let q : ℚ := (digitsToNat ipart : ℚ) +
          (digitsToNat frac : ℚ) / ((10 : ℚ) ^ frac.length)
        some (if neg then -q else q)
    | _ => none

/-- The suffix `\s+([0-9.-]+)$` of the sample-line regex: one or more
whitespace characters, then the value characters running to the end of
the line.  Returns the captured value characters. -/
def wsValueMatch (cs : List Char) : Option (List Char) :=
  let ws := cs.takeWhile (·.isWhitespace)
  let rest := cs.dropWhile (·.isWhitespace)
  if ws.isEmpty then none
  else if rest.isEmpty then none
  else if rest.all isValueChar then some rest
  else none

/-- The `.*?\}` part of the regex: scan for a closing brace whose
remaining suffix matches `wsValueMatch`, taking the leftmost such brace
(non-greedy matching with backtracking). -/
def braceTailMatch : List Char → Option (List Char)
  | [] => none
  | c :: cs =>
    if c == '\x7d' then
      match wsValueMatch cs with
      | some v => some v
      | none => braceTailMatch cs
    else braceTailMatch cs

/-- `re.match` of the pattern `^NAME\{.*?\}\s+([0-9.-]+)$` against a
stripped line, followed by `float(...)` on the capture (a failed float
parse drops the line, as the `except ValueError: continue` does). -/
def matchMetricLine (metric_name : String) (line : String) : Option ℚ :=
  let pre := metric_name ++ "\x7b"
  let lcs := line.toList
  if startsWithChars pre.toList lcs then
    match braceTailMatch (lcs.drop pre.length) with
    | some v => parseFloatQ (String.mk v)
    | none => none
  else none

/-- `MetricsCollector._extract_metric_values`: split on newlines, strip,
skip comment and empty lines, collect every parsed value of a matching
line. -/
def extract_metric_values (metrics_text metric_name : String) : List ℚ :=
  (splitOnChar '\n' metrics_text.toList).filterMap (fun rawLine =>
    let line := trimChars rawLine
    if line.head? == some '#' || line.isEmpty then none
    else matchMetricLine metric_name (String.mk line))

/-- `MetricsCollector._calculate_average`. -/
def calculate_average (values : List ℚ) : ℚ :=
  if values.isEmpty then 0 else values.sum / (values.length : ℚ)

/-- `MetricsCollector._parse_metrics`: for each of the three engine
metric names, store the arithmetic mean of the extracted values when at
least one sample matched, and leave the key absent otherwise.  (The
"key metrics not defined" guard never fires: both engines define all
three names.) -/
def parse_metrics (metrics_text : String) (et : EngineType) : Metrics :=
  let wv := extract_metric_values metrics_text (engineWaitingName et)
  let cv := extract_metric_values metrics_text (engineCacheName et)
  let rv := extract_metric_values metrics_text (engineRunningName et)
  { waiting_queue := if wv.isEmpty then none else some (calculate_average wv)
    cache_usage := if cv.isEmpty then none else some (calculate_average cv)
    running_req := if rv.isEmpty then none else some (calculate_average rv) }

/-! ### Score calculator (`core/score_calculator.py::ScoreCalculator`) -/

/-- `config/config_loader.py::ModeConfig`. -/
structure ModeConfig where
  name : String
  w_a : ℚ
  w_b : ℚ
  w_g : ℚ
  transition_point : ℚ
  steepness : ℚ
deriving DecidableEq, Repr

/-- The inner `coefficient_of_variation` of `_calculate_s1_adaptive_scores`
and `_calculate_s2_adaptive_scores` (plain `mean == 0` guard, signed
mean in the denominator). -/
def covPlain (ops : RealOps) (values : List ℚ) : ℚ :=
  if values.length ≤ 1 then 0
  else
    let mean := values.sum / (values.length : ℚ)
    if mean = 0 then 0
    else
      let variance := (values.map (fun x => (x - mean)^2)).sum / (values.length : ℚ)
      ops.sqrt variance / mean

/-- The inner `coefficient_of_variation` of `_calculate_s1_advanced_scores`
and `_calculate_s2_advanced_scores` (`abs(mean) < 1e-6` guard, absolute
mean in the denominator). -/
def covAbs (ops : RealOps) (values : List ℚ) : ℚ :=
  if values.length ≤ 1 then 0
  else
    let mean := values.sum / (values.length : ℚ)
    if |mean| < 1/1000000 then 0
    else
      let variance := (values.map (fun x => (x - mean)^2)).sum / (values.length : ℚ)
      ops.sqrt variance / |mean|

/-- The two-weight CV-based adjustment shared by `s1_adaptive` and
`s1_advanced`: boost by the CV share, then rescale so the sum equals the
original sum. -/
def adaptiveWeights2 (w_a w_b cv_w cv_c : ℚ) : ℚ × ℚ :=
  let total_cv := cv_w + cv_c
  if 0 < total_cv then
    let aw := w_a * (1 + cv_w / total_cv)
    let bw := w_b * (1 + cv_c / total_cv)
    let tot := aw + bw
    let os := w_a + w_b
    if 0 < tot then (aw * os / tot, bw * os / tot) else (aw, bw)
  else (w_a, w_b)

/-- The three-weight CV-based adjustment of `s2_adaptive` / `s2_advanced`. -/
def adaptiveWeights3 (w_a w_b w_g cv_w cv_c cv_r : ℚ) : ℚ × ℚ × ℚ :=
  let total_cv := cv_w + cv_c + cv_r
  if 0 < total_cv then
    let aw := w_a * (1 + cv_w / total_cv)
    let bw := w_b * (1 + cv_c / total_cv)
    let gw := w_g * (1 + cv_r / total_cv)
    let tot := aw + bw + gw
    let os := w_a + w_b + w_g
    if 0 < tot then (aw * os / tot, bw * os / tot, gw * os / tot)
    else (aw, bw, gw)
  else (w_a, w_b, w_g)

/-- The progressive weight adjustment of
`_calculate_s1_dynamic_waiting_scores` (lines 1934-1947): multiplier
factors `0.2 → 2.5` on `w_a` and `1.8 → 0.3` on `w_b` interpolated by
the waiting intensity, then rescaled to the original weight sum. -/
def s1_progressive_weights (w_a w_b intensity : ℚ) : ℚ × ℚ :=
  let pwa := w_a * (1/5 + (5/2 - 1/5) * intensity)
  let pwb := w_b * (9/5 + (3/10 - 9/5) * intensity)
  let tot := pwa + pwb
  let os := w_a + w_b
  if 0 < tot then (pwa * os / tot, pwb * os / tot) else (pwa, pwb)

/-- The progressive weight adjustment of
`_calculate_s2_dynamic_waiting_scores` (lines 2052-2069): factors
`0.1 → 2.5` on `w_a`, `1.5 → 0.4` on `w_b`, `1.4 → 0.6` on `w_g`. -/
def s2_progressive_weights (w_a w_b w_g intensity : ℚ) : ℚ × ℚ × ℚ :=
  let pwa := w_a * (1/10 + (5/2 - 1/10) * intensity)
  let pwb := w_b * (3/2 + (2/5 - 3/2) * intensity)
  let pwg := w_g * (7/5 + (3/5 - 7/5) * intensity)
  let tot := pwa + pwb + pwg
  let os := w_a + w_b + w_g
  if 0 < tot then (pwa * os / tot, pwb * os / tot, pwg * os / tot)
  else (pwa, pwb, pwg)

/-- As C5 words the S2 dynamic-waiting adjustment: multipliers on `w_a`
and `w_b` between `(0.2, 2.5)` and `(1.8, 0.3)` respectively and on
`w_g` between `(1.4, 0.6)`, then rescale to the original sum.  Written
from the specification, for comparison with `s2_progressive_weights`. -/
def claimS2ProgressiveWeights (w_a w_b w_g intensity : ℚ) : ℚ × ℚ × ℚ :=
  let pwa := w_a * (1/5 + (5/2 - 1/5) * intensity)
  let pwb := w_b * (9/5 + (3/10 - 9/5) * intensity)
  let pwg := w_g * (7/5 + (3/5 - 7/5) * intensity)
  let tot := pwa + pwb + pwg
  let os := w_a + w_b + w_g
  if 0 < tot then (pwa * os / tot, pwb * os / tot, pwg * os / tot)
  else (pwa, pwb, pwg)

/-- The S1 multiplier interpolation as both the code and the claim state
it, written from the specification for the confirming half of C5. -/
def claimS1ProgressiveWeights (w_a w_b intensity : ℚ) : ℚ × ℚ :=
  let pwa := w_a * (1/5 + (5/2 - 1/5) * intensity)
  let pwb := w_b * (9/5 + (3/10 - 9/5) * intensity)
  let tot := pwa + pwb
  let os := w_a + w_b
  if 0 < tot then (pwa * os / tot, pwb * os / tot) else (pwa, pwb)

def zipWith3Q (f : ℚ → ℚ → ℚ → ℚ) : List ℚ → List ℚ → List ℚ → List ℚ
  | a :: as, b :: bs, c :: cs => f a b c :: zipWith3Q f as bs cs
  | _, _, _ => []

/-! Per-algorithm score vectors.  Each function takes the metric vectors
of the valid members (in member order) and returns the new scores that
the per-member loop writes back; the `max(0.0, min(1.0, ...))` clamp is
present exactly where the source applies it. -/

/-- `_calculate_s1_scores` score computation. -/
def s1Vec (mode : ModeConfig) (wq cu : List ℚ) : List ℚ :=
  let nw := min_max_normalize wq
  List.zipWith (fun nwi ci => clamp01 (mode.w_a * (1 - nwi) + mode.w_b * (1 - ci))) nw cu

/-- `_calculate_s1_enhanced_scores` score computation. -/
def s1EnhancedVec (ops : RealOps) (mode : ModeConfig) (wq cu : List ℚ) : List ℚ :=
  let nw := min_max_normalize wq
  let nc := precise_cache_normalize ops cu
  List.zipWith (fun nwi nci => clamp01 (mode.w_a * (1 - nwi) + mode.w_b * (1 - nci))) nw nc

/-- `_calculate_s1_adaptive_scores` score computation. -/
def s1AdaptiveVec (ops : RealOps) (mode : ModeConfig) (wq cu : List ℚ) : List ℚ :=
  let ws := adaptiveWeights2 mode.w_a mode.w_b (covPlain ops wq) (covPlain ops cu)
  let nw := min_max_normalize wq
  let nc := min_max_normalize cu
  List.zipWith (fun nwi nci => clamp01 (ws.1 * (1 - nwi) + ws.2 * (1 - nci))) nw nc

/-- `_calculate_s1_ratio_scores` score computation: the waiting value is
used raw, the cache values go through `_ratio_based_normalize`, and,
unlike every other algorithm, the weighted sum is written back without
the `[0, 1]` clamp. -/
def s1RatioVec (mode : ModeConfig) (wq cu : List ℚ) : List ℚ :=
  let nc := ratio_based_normalize cu
  List.zipWith (fun wi nci => mode.w_a * (1 - wi) + mode.w_b * (1 - nci)) wq nc

/-- `_calculate_s1_precise_scores` score computation. -/
def s1PreciseVec (mode : ModeConfig) (wq cu : List ℚ) : List ℚ :=
  List.zipWith (fun wi ci => clamp01 (mode.w_a * (1 - wi) + mode.w_b * (1 - ci))) wq cu

/-- `_calculate_s1_nonlinear_scores` score computation (`epsilon = 1e-6`;
`power` is read with `getattr(mode_config, 'power', 2.0)` and
`ModeConfig` has no such field, so the exponent is always `2.0`). -/
def s1NonlinearVec (mode : ModeConfig) (wq cu : List ℚ) : List ℚ :=
  let eps : ℚ := 1/1000000
  let minw := listMin wq
  let maxw := listMax wq
  let minc := listMin cu
  let maxc := listMax cu
  let nw := if maxw = minw then List.replicate wq.length 0
            else wq.map (fun w => (w - minw) / (maxw - minw + eps))
  let nc := if maxc = minc then List.replicate cu.length (1/2)
            else cu.map (fun c => (c - minc) / (maxc - minc + eps))
  let amp0 := nc.map (fun x => x^2)
  let amp := if listMin amp0 < listMax amp0 then
      amp0.map (fun a => (a - listMin amp0) / (listMax amp0 - listMin amp0))
    else amp0
  List.zipWith (fun nwi ai => clamp01 (mode.w_a * (1 - nwi) + mode.w_b * (1 - ai))) nw amp

/-- `_calculate_s1_balanced_scores` score computation. -/
def s1BalancedVec (mode : ModeConfig) (wq cu : List ℚ) : List ℚ :=
  let nw := smooth_normalize wq
  let nc := smooth_normalize cu
  List.zipWith (fun nwi nci => clamp01 (mode.w_a * (1 - nwi) + mode.w_b * (1 - nci))) nw nc

/-- `_calculate_s2_scores` score computation. -/
def s2Vec (mode : ModeConfig) (wq cu rr : List ℚ) : List ℚ :=
  let nw := min_max_normalize wq
  let nr := min_max_normalize rr
  zipWith3Q (fun nwi ci nri => clamp01
    (mode.w_a * (1 - nwi) + mode.w_b * (1 - ci) + mode.w_g * (1 - nri))) nw cu nr

/-- `_calculate_s2_enhanced_scores` score computation. -/
def s2EnhancedVec (ops : RealOps) (mode : ModeConfig) (wq cu rr : List ℚ) : List ℚ :=
  let nw := min_max_normalize wq
  let nc := precise_cache_normalize ops cu
  let nr := precise_running_normalize ops rr
  zipWith3Q (fun nwi nci nri => clamp01
    (mode.w_a * (1 - nwi) + mode.w_b * (1 - nci) + mode.w_g * (1 - nri))) nw nc nr

/-- `_calculate_s2_nonlinear_scores` score computation (`exp_factor = 2.0`). -/
def s2NonlinearVec (mode : ModeConfig) (wq cu rr : List ℚ) : List ℚ :=
  let nw := min_max_normalize wq
  let nc := min_max_normalize cu
  let nr := min_max_normalize rr
  zipWith3Q (fun nwi nci nri => clamp01
    (mode.w_a * (1 - nwi)^2 + mode.w_b * (1 - nci)^2 + mode.w_g * (1 - nri)^2)) nw nc nr

/-- `_calculate_s2_adaptive_scores` score computation. -/
def s2AdaptiveVec (ops : RealOps) (mode : ModeConfig) (wq cu rr : List ℚ) : List ℚ :=
  let ws := adaptiveWeights3 mode.w_a mode.w_b mode.w_g
    (covPlain ops wq) (covPlain ops cu) (covPlain ops rr)
  let nw := min_max_normalize wq
  let nc := min_max_normalize cu
  let nr := min_max_normalize rr
  zipWith3Q (fun nwi nci nri => clamp01
    (ws.1 * (1 - nwi) + ws.2.1 * (1 - nci) + ws.2.2 * (1 - nri))) nw nc nr

/-- `_calculate_s1_adaptive_distribution_scores` score computation. -/
def s1AdaptiveDistVec (ops : RealOps) (mode : ModeConfig) (wq cu : List ℚ) : List ℚ :=
  let nw := adaptive_distribution_normalize ops wq "waiting_queue"
  let nc := adaptive_distribution_normalize ops cu "cache_usage"
  List.zipWith (fun nwi nci => clamp01 (mode.w_a * (1 - nwi) + mode.w_b * (1 - nci))) nw nc

/-- `_calculate_s1_advanced_scores` score computation. -/
def s1AdvancedVec (ops : RealOps) (mode : ModeConfig) (wq cu : List ℚ) : List ℚ :=
  let ws := adaptiveWeights2 mode.w_a mode.w_b (covAbs ops wq) (covAbs ops cu)
  let nw := adaptive_distribution_normalize ops wq "waiting_queue"
  let nc := adaptive_distribution_normalize ops cu "cache_usage"
  List.zipWith (fun nwi nci => clamp01 (ws.1 * (1 - nwi) + ws.2 * (1 - nci))) nw nc

/-- `_calculate_s2_advanced_scores` score computation. -/
def s2AdvancedVec (ops : RealOps) (mode : ModeConfig) (wq cu rr : List ℚ) : List ℚ :=
  let ws := adaptiveWeights3 mode.w_a mode.w_b mode.w_g
    (covAbs ops wq) (covAbs ops cu) (covAbs ops rr)
  let nw := adaptive_distribution_normalize ops wq "waiting_queue"
  let nc := adaptive_distribution_normalize ops cu "cache_usage"
  let nr := adaptive_distribution_normalize ops rr "running_req"
  zipWith3Q (fun nwi nci nri => clamp01
    (ws.1 * (1 - nwi) + ws.2.1 * (1 - nci) + ws.2.2 * (1 - nri))) nw nc nr

/-- `_calculate_s1_dynamic_waiting_scores` score computation: the
waiting intensity is `tanh(max_waiting * steepness / transition_point)`. -/
def s1DynamicWaitingVec (ops : RealOps) (mode : ModeConfig) (wq cu : List ℚ) : List ℚ :=
  let max_waiting := listMax wq
  let intensity := ops.tanh (max_waiting * mode.steepness / mode.transition_point)
  let ws := s1_progressive_weights mode.w_a mode.w_b intensity
  let nw := adaptive_distribution_normalize ops wq "waiting_queue"
  let nc := adaptive_distribution_normalize ops cu "cache_usage"
  List.zipWith (fun nwi nci => clamp01 (ws.1 * (1 - nwi) + ws.2 * (1 - nci))) nw nc

/-- `_calculate_s2_dynamic_waiting_scores` score computation. -/
def s2DynamicWaitingVec (ops : RealOps) (mode : ModeConfig) (wq cu rr : List ℚ) : List ℚ :=
  let max_waiting := listMax wq
  let intensity := ops.tanh (max_waiting * mode.steepness / mode.transition_point)
  let ws := s2_progressive_weights mode.w_a mode.w_b mode.w_g intensity
  let nw := adaptive_distribution_normalize ops wq "waiting_queue"
  let nc := adaptive_distribution_normalize ops cu "cache_usage"
  let nr := adaptive_distribution_normalize ops rr "running_req"
  zipWith3Q (fun nwi nci nri => clamp01
    (ws.1 * (1 - nwi) + ws.2.1 * (1 - nci) + ws.2.2 * (1 - nri))) nw nc nr

/-! The shared collect / write-back skeleton of every
`_calculate_*_scores` method: members whose metrics lack a required key
are skipped (keeping their score), the valid members' metric vectors are
fed to the algorithm, and the resulting scores are written back to the
valid members in order. -/

/-- The validity test of the collect loop: the S1 family requires
`waiting_queue` and `cache_usage`, the S2 family additionally
`running_req`.  (A member with an empty metrics dict fails this test, as
it does the `if not metrics` check.) -/
def required_ok (need3 : Bool) (m : Metrics) : Bool :=
  m.waiting_queue.isSome && m.cache_usage.isSome && (!need3 || m.running_req.isSome)

/-- The per-member write-back loop: each valid member takes the next
computed score, every other member keeps its current score. -/
def write_scores (need3 : Bool) : List PoolMember → List ℚ → List PoolMember
  | [], _ => []
  | m :: ms, ss =>
    if required_ok need3 m.metrics then
      match ss with
      | [] => m :: ms
      | s :: ss2 => { m with score := s } :: write_scores need3 ms ss2
    else m :: write_scores need3 ms ss

/-- The full skeleton: collect valid metric vectors, early-return when no
member is valid, otherwise compute and write back. -/
def update_scores (need3 : Bool) (F : List ℚ → List ℚ → List ℚ → List ℚ)
    (members : List PoolMember) : List PoolMember :=
  let validM := (members.map (·.metrics)).filter (required_ok need3)
  if validM.isEmpty then members
  else
    write_scores need3 members
      (F (validM.filterMap (·.waiting_queue))
         (validM.filterMap (·.cache_usage))
         (validM.filterMap (·.running_req)))

/-- The sixteen algorithm names accepted by the `if/elif` dispatch of
`ScoreCalculator.calculate_pool_scores`. -/
inductive Algo
  | a_s1
  | a_s1_enhanced
  | a_s1_adaptive
  | a_s1_ratio_alg
  | a_s1_precise
  | a_s1_nonlinear
  | a_s1_balanced
  | a_s2
  | a_s2_enhanced
  | a_s2_nonlinear
  | a_s2_adaptive
  | a_s1_adaptive_distribution
  | a_s1_advanced
  | a_s2_advanced
  | a_s1_dynamic_waiting
  | a_s2_dynamic_waiting
deriving DecidableEq, Repr

/-- The name comparisons of the dispatch chain, in source order. -/
def algoOfName (s : String) : Option Algo :=
  if s = "s1" then some .a_s1
  else if s = "s1_enhanced" then some .a_s1_enhanced
  else if s = "s1_adaptive" then some .a_s1_adaptive
  else if s = "s1_ratio" then some .a_s1_ratio_alg
  else if s = "s1_precise" then some .a_s1_precise
  else if s = "s1_nonlinear" then some .a_s1_nonlinear
  else if s = "s1_balanced" then some .a_s1_balanced
  else if s = "s2" then some .a_s2
  else if s = "s2_enhanced" then some .a_s2_enhanced
  else if s = "s2_nonlinear" then some .a_s2_nonlinear
  else if s = "s2_adaptive" then some .a_s2_adaptive
  else if s = "s1_adaptive_distribution" then some .a_s1_adaptive_distribution
  else if s = "s1_advanced" then some .a_s1_advanced
  else if s = "s2_advanced" then some .a_s2_advanced
  else if s = "s1_dynamic_waiting" then some .a_s1_dynamic_waiting
  else if s = "s2_dynamic_waiting" then some .a_s2_dynamic_waiting
  else none

/-- The `_calculate_*_scores` method selected for each accepted name:
its metric arity (`true` when `running_req` is also required) and its
score-vector function. -/
def scoreFnForAlgo (ops : RealOps) (mode : ModeConfig) :
    Algo → Bool × (List ℚ → List ℚ → List ℚ → List ℚ)
  | .a_s1 => (false, fun wq cu _ => s1Vec mode wq cu)
  | .a_s1_enhanced => (false, fun wq cu _ => s1EnhancedVec ops mode wq cu)
  | .a_s1_adaptive => (false, fun wq cu _ => s1AdaptiveVec ops mode wq cu)
  | .a_s1_ratio_alg => (false, fun wq cu _ => s1RatioVec mode wq cu)
  | .a_s1_precise => (false, fun wq cu _ => s1PreciseVec mode wq cu)
  | .a_s1_nonlinear => (false, fun wq cu _ => s1NonlinearVec mode wq cu)
  | .a_s1_balanced => (false, fun wq cu _ => s1BalancedVec mode wq cu)
  | .a_s2 => (true, fun wq cu rr => s2Vec mode wq cu rr)
  | .a_s2_enhanced => (true, fun wq cu rr => s2EnhancedVec ops mode wq cu rr)
  | .a_s2_nonlinear => (true, fun wq cu rr => s2NonlinearVec mode wq cu rr)
  | .a_s2_adaptive => (true, fun wq cu rr => s2AdaptiveVec ops mode wq cu rr)
  | .a_s1_adaptive_distribution =>
    (false, fun wq cu _ => s1AdaptiveDistVec ops mode wq cu)
  | .a_s1_advanced => (false, fun wq cu _ => s1AdvancedVec ops mode wq cu)
  | .a_s2_advanced => (true, fun wq cu rr => s2AdvancedVec ops mode wq cu rr)
  | .a_s1_dynamic_waiting =>
    (false, fun wq cu _ => s1DynamicWaitingVec ops mode wq cu)
  | .a_s2_dynamic_waiting =>
    (true, fun wq cu rr => s2DynamicWaitingVec ops mode wq cu rr)

/-- The `if/elif` dispatch of `ScoreCalculator.calculate_pool_scores`:
the algorithm's metric arity and score function, or `none` for an
unsupported mode name (which raises `ScoreCalculationError`). -/
def scoreFnFor (ops : RealOps) (mode : ModeConfig) :
    Option (Bool × (List ℚ → List ℚ → List ℚ → List ℚ)) :=
  (algoOfName mode.name).map (scoreFnForAlgo ops mode)

/-- `ScoreCalculator.calculate_pool_scores`: empty pools are skipped
unchanged; an unsupported algorithm raises (`none`), leaving all scores
intact; otherwise the selected algorithm updates the member scores. -/
def calculate_pool_scores (ops : RealOps) (mode : ModeConfig) (pool : Pool) :
    Option Pool :=
  if pool.members.isEmpty then some pool
  else
    match scoreFnFor ops mode with
    | some nf => some { pool with members := update_scores nf.1 nf.2 pool.members }
    | none => none

/-! ### Live-pool mutators

The only operations of the source that modify an existing registry
record: the member reconciliation (`Pool.update_members_smartly`), the
engine-type hot-reload mutation (`main.py::_update_pools_config`), and
the consecutive-failure bookkeeping of `main.py::_fetch_all_pools`. -/

/-- `existing_pool.engine_type = EngineType(new_pool_config.engine_type)`. -/
def set_engine_type (pool : Pool) (et : EngineType) : Pool :=
  { pool with engine_type := et }

/-- `existing_pool._consecutive_failures = 0` after a successful fetch. -/
def reset_consecutive_failures (pool : Pool) : Pool :=
  { pool with consecutive_failures := 0 }

/-- `existing_pool._consecutive_failures += 1` on a serious failure. -/
def increment_consecutive_failures (pool : Pool) : Pool :=
  { pool with consecutive_failures := pool.consecutive_failures + 1 }

/-! ### Concrete evaluation data -/

/-- A trivial stand-in for `random.choice` (only ever consulted on the
dead `total_weight <= 0` branch). -/
def pickFirst : List PoolMember → Option PoolMember := List.head?

/-- A concrete interpretation of the transcendental leaves; the theorems
evaluated with it do not depend on these values. -/
def ops0 : RealOps :=
  { sqrt := fun _ => 0, tanh := fun _ => 0, log2 := fun _ => 0
    logE := fun _ => 0, expE := fun _ => 0, powf := fun _ _ => 0 }

def fbMember : PoolMember :=
  { mkPoolMember "10.0.0.1" 8000 "Common" with score := 1 }

/-- A registry record with `pool_fallback = True`, built exactly as
`tests/test_fallback_with_thresholds.py` builds its fallback pool
(`Pool("fallback-pool", "Common", EngineType.VLLM, members,
pool_fallback=True)`). -/
def fbPool : Pool :=
  { name := "fallback-pool", partition := "Common", engine_type := .vllm
    members := [fbMember], consecutive_failures := 0
    pool_fallback := true
    member_running_req_threshold := none
    member_waiting_queue_threshold := none }

def fbRegistry : List (String × Pool) := [("fallback-pool:Common", fbPool)]

/-- C1: For every selection request whose pool exists in the registry and
whose pool record has `pool_fallback` set to true, the selection
operation is claimed to return the sentinel string `"fallback"`.  The
selection path `Scheduler._do_select_optimal_member` never consults
`pool_fallback`: on a registry holding a pool with `pool_fallback = true`
and one candidate member of positive score, it returns that member's
`"ip:port"` string, not `"fallback"`. -/
theorem c1_pool_fallback_ignored :
    fbPool.pool_fallback = true ∧
    do_select_optimal_member pickFirst (1/2) fbRegistry "fallback-pool" "Common"
      ["10.0.0.1:8000"] = some "10.0.0.1:8000" ∧
    do_select_optimal_member pickFirst (1/2) fbRegistry "fallback-pool" "Common"
      ["10.0.0.1:8000"] ≠ some "fallback" := by
  refine ⟨rfl, by decide, by decide⟩

/-- C10: Every pool record created by the membership fetch loop is
constructed without the configuration's fallback section — its
`pool_fallback` is `false` and both thresholds are `None` — and none of
the operations applied to live records (member reconciliation,
engine-type hot reload, failure-counter bookkeeping) alters the fallback
fields. -/
theorem c10_fetch_pool_no_fallback_config :
    (∀ (name partition : String) (et : EngineType) (ms : List PoolMember),
      (poolFromFetch name partition et ms).pool_fallback = false ∧
      (poolFromFetch name partition et ms).member_running_req_threshold = none ∧
      (poolFromFetch name partition et ms).member_waiting_queue_threshold = none) ∧
    (∀ (pool : Pool) (nm : List PoolMember),
      ((update_members_smartly pool nm).1.pool_fallback = pool.pool_fallback ∧
       (update_members_smartly pool nm).1.member_running_req_threshold
         = pool.member_running_req_threshold ∧
       (update_members_smartly pool nm).1.member_waiting_queue_threshold
         = pool.member_waiting_queue_threshold)) ∧
    (∀ (pool : Pool) (et : EngineType),
      ((set_engine_type pool et).pool_fallback = pool.pool_fallback ∧
       (set_engine_type pool et).member_running_req_threshold
         = pool.member_running_req_threshold ∧
       (set_engine_type pool et).member_waiting_queue_threshold
         = pool.member_waiting_queue_threshold)) ∧
    (∀ pool : Pool,
      ((reset_consecutive_failures pool).pool_fallback = pool.pool_fallback ∧
       (increment_consecutive_failures pool).pool_fallback = pool.pool_fallback ∧
       (reset_consecutive_failures pool).member_running_req_threshold
         = pool.member_running_req_threshold ∧
       (increment_consecutive_failures pool).member_running_req_threshold
         = pool.member_running_req_threshold ∧
       (reset_consecutive_failures pool).member_waiting_queue_threshold
         = pool.member_waiting_queue_threshold ∧
       (increment_consecutive_failures pool).member_waiting_queue_threshold
         = pool.member_waiting_queue_threshold)) := by
  refine ⟨fun _ _ _ _ => ⟨rfl, rfl, rfl⟩,
          fun _ _ => ⟨rfl, rfl, rfl⟩,
          fun _ _ => ⟨rfl, rfl, rfl⟩,
          fun _ => ⟨rfl, rfl, rfl, rfl, rfl, rfl⟩⟩

/-- C7 counterexample: `_min_max_normalize` maps a one-element input to
`[0.0]`, not `[0.5]`. -/
theorem c7_min_max_singleton_cex :
    min_max_normalize [(3 : ℚ)] = [0] ∧ min_max_normalize [(3 : ℚ)] ≠ [1/2] := by
  constructor <;> norm_num [min_max_normalize]

/-- C7 (amended): on a one-element input, every normaliser routine of the
score calculator returns `[0.5]` — except `_min_max_normalize`, which
returns `[0.0]`. -/
theorem c7_normalizer_singleton (ops : RealOps) (x base sens : ℚ)
    (rng : ℚ × ℚ) (metric_type : String) :
    min_max_normalize [x] = [0] ∧
    relative_ratio_normalize ops [x] = [1/2] ∧
    exponential_difference_normalize ops base [x] = [1/2] ∧
    sigmoid_difference_normalize ops sens [x] = [1/2] ∧
    adaptive_cache_normalize ops [x] = [1/2] ∧
    precise_cache_normalize ops [x] = [1/2] ∧
    precise_running_normalize ops [x] = [1/2] ∧
    ratio_based_normalize [x] = [1/2] ∧
    smooth_normalize [x] = [1/2] ∧
    adaptive_distribution_normalize ops [x] metric_type = [1/2] ∧
    rank_based_normalize [x] rng = [1/2] := by
  refine ⟨rfl, rfl, rfl, rfl, rfl, rfl, rfl, rfl, ?_, ?_, rfl⟩
  · simp [smooth_normalize]
  · simp [adaptive_distribution_normalize]

/-- The classification table the corrected C6 describes: network errors
by the timeout substring; every exception that `isinstance`-matches
`F5ApiError` — token/authentication exceptions included, since
`TokenAuthenticationError` subclasses `F5ApiError` and is therefore
intercepted by the earlier branch — by the status-code substrings of its
message (`404` serious, `401`/`403` transient, `500`/`502`/`503`
transient, anything else serious); everything else serious. -/
def specClassify (e : FetchExc) : String × Bool :=
  match e with
  | .clientError msg =>
    if containsSubstr (lowerStr msg) "timeout" then ("Network timeout", true)
    else ("Network connection error", false)
  | .f5Api msg => apiMsgClassify msg
  | .tokenAuth msg => apiMsgClassify msg
  | .unknownExc _ => ("Unknown error", true)

/-- C6 counterexample: the claim says every HTTP 5xx fetch failure is
transient and every token/authentication exception is transient, but the
code marks an `F5ApiError` whose message carries status 504 as serious
(only `500`/`502`/`503` are recognised), and a
`TokenAuthenticationError` without a recognised status code in its
message (e.g. the `"Token not found in login response"` raised by
`F5Client.login`) is also classified serious, because the dedicated
token branch is shadowed by the `F5ApiError` `isinstance` check. -/
theorem c6_classification_cex :
    analyze_fetch_failure (.f5Api "Failed to get Pool members: HTTP 504")
      = ("F5 API error", true) ∧
    analyze_fetch_failure (.tokenAuth "Token not found in login response")
      = ("F5 API error", true) ∧
    (analyze_fetch_failure (.f5Api "Failed to get Pool members: HTTP 504")).2 ≠ false ∧
    (analyze_fetch_failure (.tokenAuth "Token not found in login response")).2 ≠ false := by
  refine ⟨by decide, by decide, by decide, by decide⟩

/-- C6 (amended): the fetch-failure classifier behaves as `specClassify`
states — network timeout serious, other network errors transient,
message status `404` serious, `401`/`403` transient, `500`/`502`/`503`
transient, other API errors serious, unknown exceptions serious — and a
token/authentication exception is classified exactly like a plain API
error with the same message (its dedicated transient branch is dead
code). -/
theorem c6_failure_classification :
    (∀ e : FetchExc, analyze_fetch_failure e = specClassify e) ∧
    (∀ msg : String,
      analyze_fetch_failure (.tokenAuth msg) = analyze_fetch_failure (.f5Api msg)) := by
  constructor
  · intro e
    cases e <;> rfl
  · intro msg
    rfl

/-- The "rescale so the sum of the adjusted weights equals the target
sum" step, as worded by the specification (two weights). -/
def rescaleToSum2 (x y target : ℚ) : ℚ × ℚ :=
  if 0 < x + y then (x * target / (x + y), y * target / (x + y)) else (x, y)

/-- The rescaling step for three weights. -/
def rescaleToSum3 (x y z target : ℚ) : ℚ × ℚ × ℚ :=
  if 0 < x + y + z then
    (x * target / (x + y + z), y * target / (x + y + z), z * target / (x + y + z))
  else (x, y, z)

/-- C5 counterexample: the claim puts the S2 dynamic-waiting multipliers
on `w_a` and `w_b` at `(0.2, 2.5)` and `(1.8, 0.3)`; the code
(`_calculate_s2_dynamic_waiting_scores`) uses `(0.1, 2.5)` and
`(1.5, 0.4)`.  At intensity `0` with unit weights, the code produces
`(0.1, 1.5, 1.4)` while the claim's interpolation would produce
`(3/17, 27/17, 21/17)` after rescaling. -/
theorem c5_s2_dynamic_constants_cex :
    s2_progressive_weights 1 1 1 0 = (1/10, 3/2, 7/5) ∧
    claimS2ProgressiveWeights 1 1 1 0 = (3/17, 27/17, 21/17) ∧
    s2_progressive_weights 1 1 1 0 ≠ claimS2ProgressiveWeights 1 1 1 0 := by
  refine ⟨?_, ?_, ?_⟩ <;>
    simp [s2_progressive_weights, claimS2ProgressiveWeights, Prod.ext_iff] <;>
    norm_num

lemma rescale2_sum (x y t : ℚ) (h : 0 < x + y) :
    x * t / (x + y) + y * t / (x + y) = t := by
  rw [div_add_div_same, ← add_mul]
  exact mul_div_cancel_left₀ t (ne_of_gt h)

lemma rescale3_sum (x y z t : ℚ) (h : 0 < x + y + z) :
    x * t / (x + y + z) + y * t / (x + y + z) + z * t / (x + y + z) = t := by
  rw [div_add_div_same, div_add_div_same, ← add_mul, ← add_mul]
  exact mul_div_cancel_left₀ t (ne_of_gt h)

/-- C5 (amended): with intensity `ι = tanh(max_waiting · steepness /
transition_point)`, the S1 dynamic-waiting algorithm multiplies `w_a`
and `w_b` by factors interpolated between `(0.2, 2.5)` and `(1.8, 0.3)`
— as the claim states — while the S2 variant uses `(0.1, 2.5)`,
`(1.5, 0.4)` and, on `w_g`, `(1.4, 0.6)`; in both variants the adjusted
weights are then rescaled so that their sum equals the sum of the
original weights (whenever that sum is positive). -/
theorem c5_dynamic_waiting_weights (intensity w_a w_b w_g : ℚ)
    (h0 : 0 ≤ intensity) (h1 : intensity ≤ 1)
    (ha : 0 ≤ w_a) (hb : 0 ≤ w_b) (hg : 0 ≤ w_g) :
    s1_progressive_weights w_a w_b intensity
      = rescaleToSum2 (w_a * (1/5 + (5/2 - 1/5) * intensity))
          (w_b * (9/5 + (3/10 - 9/5) * intensity)) (w_a + w_b) ∧
    s2_progressive_weights w_a w_b w_g intensity
      = rescaleToSum3 (w_a * (1/10 + (5/2 - 1/10) * intensity))
          (w_b * (3/2 + (2/5 - 3/2) * intensity))
          (w_g * (7/5 + (3/5 - 7/5) * intensity)) (w_a + w_b + w_g) ∧
    (0 < w_a + w_b →
      (s1_progressive_weights w_a w_b intensity).1
        + (s1_progressive_weights w_a w_b intensity).2 = w_a + w_b) ∧
    (0 < w_a + w_b + w_g →
      (s2_progressive_weights w_a w_b w_g intensity).1
        + (s2_progressive_weights w_a w_b w_g intensity).2.1
        + (s2_progressive_weights w_a w_b w_g intensity).2.2
        = w_a + w_b + w_g) := by
  refine ⟨rfl, rfl, ?_, ?_⟩
  · intro hpos
    have htot : 0 < w_a * (1/5 + (5/2 - 1/5) * intensity)
        + w_b * (9/5 + (3/10 - 9/5) * intensity) := by nlinarith
    simp only [s1_progressive_weights, if_pos htot]
    exact rescale2_sum _ _ _ htot
  · intro hpos
    have htot : 0 < w_a * (1/10 + (5/2 - 1/10) * intensity)
        + w_b * (3/2 + (2/5 - 3/2) * intensity)
        + w_g * (7/5 + (3/5 - 7/5) * intensity) := by nlinarith
    simp only [s2_progressive_weights, if_pos htot]
    exact rescale3_sum _ _ _ _ htot

/-- C5 witness: the amended theorem applied at intensity `1/2` and the
default `s1_dynamic_waiting` weights `w_a = 0.3`, `w_b = 0.7`. -/
theorem c5_dynamic_waiting_weights_witness :
    (s1_progressive_weights (3/10) (7/10) (1/2)).1
      + (s1_progressive_weights (3/10) (7/10) (1/2)).2 = 3/10 + 7/10 :=
  (c5_dynamic_waiting_weights (1/2) (3/10) (7/10) 0 (by norm_num) (by norm_num)
    (by norm_num) (by norm_num) (by norm_num)).2.2.1 (by norm_num)

/-- C8: For every Prometheus text body, the metric stored by the parser
for each target name is the arithmetic mean of all values parsed from
matching non-comment sample lines; in particular two samples with values
`a` and `b` yield `(a + b) / 2`. -/
theorem c8_prometheus_mean (metrics_text : String) (et : EngineType) :
    (∀ vs : List ℚ, extract_metric_values metrics_text (engineWaitingName et) = vs →
      vs ≠ [] →
      (parse_metrics metrics_text et).waiting_queue = some (vs.sum / (vs.length : ℚ))) ∧
    (∀ a b : ℚ, extract_metric_values metrics_text (engineWaitingName et) = [a, b] →
      (parse_metrics metrics_text et).waiting_queue = some ((a + b) / 2)) ∧
    (∀ vs : List ℚ, extract_metric_values metrics_text (engineCacheName et) = vs →
      vs ≠ [] →
      (parse_metrics metrics_text et).cache_usage = some (vs.sum / (vs.length : ℚ))) ∧
    (∀ a b : ℚ, extract_metric_values metrics_text (engineCacheName et) = [a, b] →
      (parse_metrics metrics_text et).cache_usage = some ((a + b) / 2)) ∧
    (∀ vs : List ℚ, extract_metric_values metrics_text (engineRunningName et) = vs →
      vs ≠ [] →
      (parse_metrics metrics_text et).running_req = some (vs.sum / (vs.length : ℚ))) ∧
    (∀ a b : ℚ, extract_metric_values metrics_text (engineRunningName et) = [a, b] →
      (parse_metrics metrics_text et).running_req = some ((a + b) / 2)) := by
  have hempty : ∀ vs : List ℚ, vs ≠ [] → vs.isEmpty = false := by
    intro vs h
    cases vs with
    | nil => exact absurd rfl h
    | cons a t => rfl
  refine ⟨?_, ?_, ?_, ?_, ?_, ?_⟩
  · intro vs hv hne
    simp [parse_metrics, hv, hempty vs hne, calculate_average]
  · intro a b hv
    simp [parse_metrics, hv, calculate_average]
  · intro vs hv hne
    simp [parse_metrics, hv, hempty vs hne, calculate_average]
  · intro a b hv
    simp [parse_metrics, hv, calculate_average]
  · intro vs hv hne
    simp [parse_metrics, hv, hempty vs hne, calculate_average]
  · intro a b hv
    simp [parse_metrics, hv, calculate_average]

/-- A concrete Prometheus exposition body: a comment line, two samples of
the vllm waiting-queue series with values `3` and `5`, and one cache
sample. -/
def promText : String :=
  "# HELP vllm:num_requests_waiting number waiting\n" ++
  "vllm:num_requests_waiting\x7bmodel=\x22a\x22\x7d 3\n" ++
  "vllm:num_requests_waiting\x7bmodel=\x22b\x22\x7d 5\n" ++
  "vllm:gpu_cache_usage_perc\x7bmodel=\x22a\x22\x7d 1\n"

/-- C8 witness: on `promText` the two waiting samples average to `4`. -/
theorem c8_prometheus_mean_witness :
    extract_metric_values promText (engineWaitingName .vllm) = [3, 5] ∧
    (parse_metrics promText .vllm).waiting_queue = some 4 := by
  have h1 : extract_metric_values promText (engineWaitingName .vllm) = [3, 5] := by
    decide
  refine ⟨h1, ?_⟩
  rw [(c8_prometheus_mean promText .vllm).2.1 3 5 h1]
  norm_num

lemma dictLookupLast_eq_some_of_nodup (ms : List PoolMember) (o : PoolMember)
    (hnd : (ms.map memberKey).Nodup) (ho : o ∈ ms) :
    dictLookupLast ms (memberKey o) = some o := by
  have hsome : (ms.reverse.find? (fun m => memberKey m == memberKey o)).isSome := by
    rw [List.find?_isSome]
    exact ⟨o, List.mem_reverse.2 ho, by simp⟩
  obtain ⟨m, hm⟩ := Option.isSome_iff_exists.1 hsome
  have hmem : m ∈ ms := List.mem_reverse.1 (List.mem_of_find?_eq_some hm)
  have hkey : memberKey m = memberKey o := by
    have := List.find?_some hm
    simpa using this
  have : m = o := List.inj_on_of_nodup_map hnd hmem ho hkey
  rw [dictLookupLast, hm, this]

lemma dictLookupLast_eq_none (ms : List PoolMember) (k : String)
    (hno : ∀ o ∈ ms, memberKey o ≠ k) :
    dictLookupLast ms k = none := by
  simp only [dictLookupLast, List.find?_eq_none, List.mem_reverse]
  intro m hm
  simpa using hno m hm

/-- C4: Membership reconciliation keeps the old `score` and `metrics` of
every member whose `(ip, port)` key occurs in both the old and the new
list, preserves the new list's order and identity fields positionally,
and leaves members whose key is new untouched — so a freshly constructed
member keeps the initial score `0.001`. -/
theorem c4_membership_refresh_preserves (pool : Pool) (nm : List PoolMember)
    (hnd : (pool.members.map memberKey).Nodup) :
    (refreshedMembers pool nm).length = nm.length ∧
    (∀ i : ℕ,
      ((refreshedMembers pool nm).get? i).map (fun m => (m.ip, m.port, m.partition))
        = (nm.get? i).map (fun m => (m.ip, m.port, m.partition))) ∧
    (∀ (i : ℕ) (n o : PoolMember), nm.get? i = some n → o ∈ pool.members →
      memberKey o = memberKey n →
      ((refreshedMembers pool nm).get? i).map (fun m => (m.score, m.metrics))
        = some (o.score, o.metrics)) ∧
    (∀ (i : ℕ) (n : PoolMember), nm.get? i = some n →
      (∀ o ∈ pool.members, memberKey o ≠ memberKey n) →
      (refreshedMembers pool nm).get? i = some n) ∧
    (∀ (ip : String) (port : Int) (partition : String),
      (mkPoolMember ip port partition).score = 1/1000) := by
  have hR : refreshedMembers pool nm = nm.map (fun n =>
      match dictLookupLast pool.members (memberKey n) with
      | some o => { n with score := o.score, metrics := o.metrics }
      | none => n) := rfl
  refine ⟨by rw [hR, List.length_map], ?_, ?_, ?_, fun _ _ _ => rfl⟩
  · intro i
    rw [hR, List.get?_map]
    cases hg : nm.get? i with
    | none => rfl
    | some n =>
      cases hd : dictLookupLast pool.members (memberKey n) <;> simp [hd]
  · intro i n o hget ho hk
    rw [hR, List.get?_map, hget]
    have hsome : dictLookupLast pool.members (memberKey n) = some o := by
      rw [← hk]
      exact dictLookupLast_eq_some_of_nodup pool.members o hnd ho
    simp [hsome]
  · intro i n hget hno
    rw [hR, List.get?_map, hget]
    have hnone : dictLookupLast pool.members (memberKey n) = none :=
      dictLookupLast_eq_none pool.members (memberKey n) hno
    simp [hnone]

def demoOldMember : PoolMember :=
  { mkPoolMember "10.0.0.1" 8000 "Common" with
    score := 7/10, metrics := ⟨some 2, some (1/2), none⟩ }

def demoPoolOld : Pool := poolFromFetch "pool1" "Common" .vllm [demoOldMember]

def demoNewMembers : List PoolMember :=
  [mkPoolMember "10.0.0.1" 8000 "Common", mkPoolMember "10.0.0.2" 8000 "Common"]

/-- C4 witness: the reconciliation theorem applied to a concrete refresh
of one retained and one added member. -/
theorem c4_membership_refresh_witness :
    (refreshedMembers demoPoolOld demoNewMembers).length = demoNewMembers.length :=
  (c4_membership_refresh_preserves demoPoolOld demoNewMembers (by decide)).1

lemma clamp01_bounds (x : ℚ) : 0 ≤ clamp01 x ∧ clamp01 x ≤ 1 :=
  ⟨le_max_left 0 _, max_le (by norm_num) (min_le_left 1 x)⟩

lemma mem_zipWith_clamp {g : ℚ → ℚ → ℚ} {l1 l2 : List ℚ} {x : ℚ}
    (hx : x ∈ List.zipWith (fun a b => clamp01 (g a b)) l1 l2) :
    0 ≤ x ∧ x ≤ 1 := by
  induction l1 generalizing l2 with
  | nil => simp at hx
  | cons a as ih =>
    cases l2 with
    | nil => simp at hx
    | cons b bs =>
      rw [List.zipWith_cons_cons, List.mem_cons] at hx
      rcases hx with h | h
      · rw [h]; exact clamp01_bounds _
      · exact ih h

lemma mem_zipWith3_clamp {g : ℚ → ℚ → ℚ → ℚ} {l1 l2 l3 : List ℚ} {x : ℚ}
    (hx : x ∈ zipWith3Q (fun a b c => clamp01 (g a b c)) l1 l2 l3) :
    0 ≤ x ∧ x ≤ 1 := by
  induction l1 generalizing l2 l3 with
  | nil => simp [zipWith3Q] at hx
  | cons a as ih =>
    cases l2 with
    | nil => simp [zipWith3Q] at hx
    | cons b bs =>
      cases l3 with
      | nil => simp [zipWith3Q] at hx
      | cons c cs =>
        rw [zipWith3Q, List.mem_cons] at hx
        rcases hx with h | h
        · rw [h]; exact clamp01_bounds _
        · exact ih h

lemma write_scores_mem (b : Bool) :
    ∀ (ms : List PoolMember) (ss : List ℚ) (m' : PoolMember),
      m' ∈ write_scores b ms ss → m'.score ∈ ss ∨ m' ∈ ms := by
  intro ms
  induction ms with
  | nil => intro ss m' h; simp [write_scores] at h
  | cons m ms ih =>
    intro ss m' h
    by_cases hreq : required_ok b m.metrics
    · cases ss with
      | nil =>
        simp only [write_scores, if_pos hreq] at h
        exact Or.inr h
      | cons s ss2 =>
        simp only [write_scores, if_pos hreq, List.mem_cons] at h
        rcases h with h | h
        · exact Or.inl (by rw [h]; exact List.mem_cons_self _ _)
        · rcases ih ss2 m' h with hs | hm
          · exact Or.inl (List.mem_cons_of_mem _ hs)
          · exact Or.inr (List.mem_cons_of_mem _ hm)
    · simp only [write_scores, if_neg hreq, List.mem_cons] at h
      rcases h with h | h
      · exact Or.inr (by rw [h]; exact List.mem_cons_self _ _)
      · rcases ih ss m' h with hs | hm
        · exact Or.inl hs
        · exact Or.inr (List.mem_cons_of_mem _ hm)

lemma update_scores_mem (b : Bool) (F : List ℚ → List ℚ → List ℚ → List ℚ)
    (ms : List PoolMember)
    (hF : ∀ wq cu rr x, x ∈ F wq cu rr → 0 ≤ x ∧ x ≤ 1) :
    ∀ m' ∈ update_scores b F ms,
      (0 ≤ m'.score ∧ m'.score ≤ 1) ∨ ∃ m ∈ ms, m'.score = m.score := by
  intro m' hm'
  simp only [update_scores] at hm'
  by_cases he : ((ms.map (·.metrics)).filter (required_ok b)).isEmpty
  · rw [if_pos he] at hm'
    exact Or.inr ⟨m', hm', rfl⟩
  · rw [if_neg he] at hm'
    rcases write_scores_mem b ms _ m' hm' with hs | hm
    · exact Or.inl (hF _ _ _ _ hs)
    · exact Or.inr ⟨m', hm, rfl⟩

set_option maxHeartbeats 1000000 in
lemma algoOfName_ratio_name (s : String)
    (h : algoOfName s = some Algo.a_s1_ratio_alg) : s = "s1_ratio" := by
  unfold algoOfName at h
  by_cases h1 : s = "s1"
  · rw [if_pos h1] at h
    exact Algo.noConfusion (Option.some.inj h)
  rw [if_neg h1] at h
  by_cases h2 : s = "s1_enhanced"
  · rw [if_pos h2] at h
    exact Algo.noConfusion (Option.some.inj h)
  rw [if_neg h2] at h
  by_cases h3 : s = "s1_adaptive"
  · rw [if_pos h3] at h
    exact Algo.noConfusion (Option.some.inj h)
  rw [if_neg h3] at h
  by_cases h4 : s = "s1_ratio"
  · exact h4
  rw [if_neg h4] at h
  by_cases h5 : s = "s1_precise"
  · rw [if_pos h5] at h
    exact Algo.noConfusion (Option.some.inj h)
  rw [if_neg h5] at h
  by_cases h6 : s = "s1_nonlinear"
  · rw [if_pos h6] at h
    exact Algo.noConfusion (Option.some.inj h)
  rw [if_neg h6] at h
  by_cases h7 : s = "s1_balanced"
  · rw [if_pos h7] at h
    exact Algo.noConfusion (Option.some.inj h)
  rw [if_neg h7] at h
  by_cases h8 : s = "s2"
  · rw [if_pos h8] at h
    exact Algo.noConfusion (Option.some.inj h)
  rw [if_neg h8] at h
  by_cases h9 : s = "s2_enhanced"
  · rw [if_pos h9] at h
    exact Algo.noConfusion (Option.some.inj h)
  rw [if_neg h9] at h
  by_cases h10 : s = "s2_nonlinear"
  · rw [if_pos h10] at h
    exact Algo.noConfusion (Option.some.inj h)
  rw [if_neg h10] at h
  by_cases h11 : s = "s2_adaptive"
  · rw [if_pos h11] at h
    exact Algo.noConfusion (Option.some.inj h)
  rw [if_neg h11] at h
  by_cases h12 : s = "s1_adaptive_distribution"
  · rw [if_pos h12] at h
    exact Algo.noConfusion (Option.some.inj h)
  rw [if_neg h12] at h
  by_cases h13 : s = "s1_advanced"
  · rw [if_pos h13] at h
    exact Algo.noConfusion (Option.some.inj h)
  rw [if_neg h13] at h
  by_cases h14 : s = "s2_advanced"
  · rw [if_pos h14] at h
    exact Algo.noConfusion (Option.some.inj h)
  rw [if_neg h14] at h
  by_cases h15 : s = "s1_dynamic_waiting"
  · rw [if_pos h15] at h
    exact Algo.noConfusion (Option.some.inj h)
  rw [if_neg h15] at h
  by_cases h16 : s = "s2_dynamic_waiting"
  · rw [if_pos h16] at h
    exact Algo.noConfusion (Option.some.inj h)
  rw [if_neg h16] at h
  exact Option.noConfusion h

lemma scoreFn_clamped (ops : RealOps) (mode : ModeConfig)
    (nf : Bool × (List ℚ → List ℚ → List ℚ → List ℚ))
    (hname : mode.name ≠ "s1_ratio") (hsf : scoreFnFor ops mode = some nf) :
    ∀ wq cu rr x, x ∈ nf.2 wq cu rr → 0 ≤ x ∧ x ≤ 1 := by
  unfold scoreFnFor at hsf
  cases ha : algoOfName mode.name with
  | none => rw [ha] at hsf; cases hsf
  | some a =>
    rw [ha] at hsf
    injection hsf with e
    subst e
    cases a with
    | a_s1_ratio_alg => exact absurd (algoOfName_ratio_name _ ha) hname
    | a_s1 =>
      intro wq cu rr x hx
      simp only [scoreFnForAlgo, s1Vec] at hx
      exact mem_zipWith_clamp hx
    | a_s1_enhanced =>
      intro wq cu rr x hx
      simp only [scoreFnForAlgo, s1EnhancedVec] at hx
      exact mem_zipWith_clamp hx
    | a_s1_adaptive =>
      intro wq cu rr x hx
      simp only [scoreFnForAlgo, s1AdaptiveVec] at hx
      exact mem_zipWith_clamp hx
    | a_s1_precise =>
      intro wq cu rr x hx
      simp only [scoreFnForAlgo, s1PreciseVec] at hx
      exact mem_zipWith_clamp hx
    | a_s1_nonlinear =>
      intro wq cu rr x hx
      simp only [scoreFnForAlgo, s1NonlinearVec] at hx
      exact mem_zipWith_clamp hx
    | a_s1_balanced =>
      intro wq cu rr x hx
      simp only [scoreFnForAlgo, s1BalancedVec] at hx
      exact mem_zipWith_clamp hx
    | a_s2 =>
      intro wq cu rr x hx
      simp only [scoreFnForAlgo, s2Vec] at hx
      exact mem_zipWith3_clamp hx
    | a_s2_enhanced =>
      intro wq cu rr x hx
      simp only [scoreFnForAlgo, s2EnhancedVec] at hx
      exact mem_zipWith3_clamp hx
    | a_s2_nonlinear =>
      intro wq cu rr x hx
      simp only [scoreFnForAlgo, s2NonlinearVec] at hx
      exact mem_zipWith3_clamp hx
    | a_s2_adaptive =>
      intro wq cu rr x hx
      simp only [scoreFnForAlgo, s2AdaptiveVec] at hx
      exact mem_zipWith3_clamp hx
    | a_s1_adaptive_distribution =>
      intro wq cu rr x hx
      simp only [scoreFnForAlgo, s1AdaptiveDistVec] at hx
      exact mem_zipWith_clamp hx
    | a_s1_advanced =>
      intro wq cu rr x hx
      simp only [scoreFnForAlgo, s1AdvancedVec] at hx
      exact mem_zipWith_clamp hx
    | a_s2_advanced =>
      intro wq cu rr x hx
      simp only [scoreFnForAlgo, s2AdvancedVec] at hx
      exact mem_zipWith3_clamp hx
    | a_s1_dynamic_waiting =>
      intro wq cu rr x hx
      simp only [scoreFnForAlgo, s1DynamicWaitingVec] at hx
      exact mem_zipWith_clamp hx
    | a_s2_dynamic_waiting =>
      intro wq cu rr x hx
      simp only [scoreFnForAlgo, s2DynamicWaitingVec] at hx
      exact mem_zipWith3_clamp hx

/-- C2 (amended): for every algorithm of the score calculator other than
`s1_ratio`, every score it stores lies in `[0, 1]` (the weighted sum is
clamped before being written); a member the algorithm does not update
keeps a previous member's score.  `s1_ratio` writes the raw weighted sum,
which can leave the range. -/
theorem c2_scores_clamped (ops : RealOps) (mode : ModeConfig) (pool p' : Pool)
    (hname : mode.name ≠ "s1_ratio")
    (h : calculate_pool_scores ops mode pool = some p') :
    ∀ m' ∈ p'.members,
      (0 ≤ m'.score ∧ m'.score ≤ 1) ∨ ∃ m ∈ pool.members, m'.score = m.score := by
  unfold calculate_pool_scores at h
  by_cases hemp : pool.members.isEmpty
  · rw [if_pos hemp] at h
    injection h with h'
    subst h'
    intro m' hm'
    exact Or.inr ⟨m', hm', rfl⟩
  · rw [if_neg hemp] at h
    cases hsf : scoreFnFor ops mode with
    | none => rw [hsf] at h; cases h
    | some nf =>
      rw [hsf] at h
      injection h with h'
      subst h'
      intro m' hm'
      exact update_scores_mem nf.1 nf.2 pool.members
        (scoreFn_clamped ops mode nf hname hsf) m' hm'

def rMember : PoolMember :=
  { mkPoolMember "10.0.0.3" 8000 "Common" with
    metrics := ⟨some 5, some (1/2), none⟩ }

def rPool : Pool := poolFromFetch "rp" "Common" .vllm [rMember]

def rMode : ModeConfig :=
  { name := "s1_ratio", w_a := 1/2, w_b := 1/2, w_g := 0
    transition_point := 30, steepness := 1 }

/-- C2 counterexample: running `s1_ratio` with weights `0.5/0.5` on a
member whose raw `waiting_queue` is `5` stores the unclamped score
`-7/4`, outside `[0, 1]`. -/
theorem c2_s1_ratio_unclamped_cex :
    (calculate_pool_scores ops0 rMode rPool).map (fun p => p.members.map (·.score))
      = some [-7/4] ∧ ¬ (0 ≤ (-7/4 : ℚ)) := by
  constructor
  · simp +decide [calculate_pool_scores, scoreFnFor, algoOfName, scoreFnForAlgo,
      rMode, rPool, rMember, update_scores, write_scores, required_ok, s1RatioVec,
      ratio_based_normalize, mkPoolMember, poolFromFetch, Metrics.empty]
    norm_num
  · norm_num

def s1DemoMode : ModeConfig :=
  { name := "s1", w_a := 1/2, w_b := 1/2, w_g := 0
    transition_point := 30, steepness := 1 }

def s1DemoMember : PoolMember :=
  { mkPoolMember "10.0.0.4" 8000 "Common" with
    metrics := ⟨some 0, some (1/2), none⟩ }

def s1DemoPool : Pool := poolFromFetch "dp" "Common" .vllm [s1DemoMember]

def s1DemoResult : Pool :=
  { s1DemoPool with members := [{ s1DemoMember with score := 3/4 }] }

/-- C2 witness: the clamping theorem applied to a concrete `s1` run. -/
theorem c2_scores_clamped_witness :
    calculate_pool_scores ops0 s1DemoMode s1DemoPool = some s1DemoResult ∧
    ∀ m' ∈ s1DemoResult.members,
      (0 ≤ m'.score ∧ m'.score ≤ 1) ∨ ∃ m ∈ s1DemoPool.members, m'.score = m.score := by
  have h : calculate_pool_scores ops0 s1DemoMode s1DemoPool = some s1DemoResult := by
    simp +decide [calculate_pool_scores, scoreFnFor, algoOfName, scoreFnForAlgo,
      s1DemoMode, s1DemoPool, s1DemoMember, s1DemoResult, update_scores,
      write_scores, required_ok, s1Vec, min_max_normalize, clamp01,
      mkPoolMember, poolFromFetch, Metrics.empty]
    norm_num
  exact ⟨h, c2_scores_clamped ops0 s1DemoMode s1DemoPool s1DemoResult
    (by decide) h⟩

lemma write_scores_metrics (b : Bool) :
    ∀ (ms : List PoolMember) (ss : List ℚ),
      (write_scores b ms ss).map (·.metrics) = ms.map (·.metrics) := by
  intro ms
  induction ms with
  | nil => intro ss; rfl
  | cons m ms ih =>
    intro ss
    by_cases hreq : required_ok b m.metrics
    · cases ss with
      | nil => simp [write_scores, hreq]
      | cons s ss2 => simp [write_scores, hreq, ih ss2]
    · simp [write_scores, hreq, ih ss]

lemma write_scores_length (b : Bool) :
    ∀ (ms : List PoolMember) (ss : List ℚ),
      (write_scores b ms ss).length = ms.length := by
  intro ms
  induction ms with
  | nil => intro ss; rfl
  | cons m ms ih =>
    intro ss
    by_cases hreq : required_ok b m.metrics
    · cases ss with
      | nil => simp [write_scores, hreq]
      | cons s ss2 => simp [write_scores, hreq, ih ss2]
    · simp [write_scores, hreq, ih ss]

lemma write_scores_idem (b : Bool) :
    ∀ (ms : List PoolMember) (ss : List ℚ),
      write_scores b (write_scores b ms ss) ss = write_scores b ms ss := by
  intro ms
  induction ms with
  | nil => intro ss; rfl
  | cons m ms ih =>
    intro ss
    by_cases hreq : required_ok b m.metrics
    · cases ss with
      | nil => simp [write_scores, hreq]
      | cons s ss2 => simp [write_scores, hreq, ih ss2]
    · simp [write_scores, hreq, ih ss]

lemma update_scores_length (b : Bool) (F : List ℚ → List ℚ → List ℚ → List ℚ)
    (ms : List PoolMember) : (update_scores b F ms).length = ms.length := by
  simp only [update_scores]
  by_cases he : ((ms.map (·.metrics)).filter (required_ok b)).isEmpty
  · rw [if_pos he]
  · rw [if_neg he]
    exact write_scores_length b ms _

lemma update_scores_idem (b : Bool) (F : List ℚ → List ℚ → List ℚ → List ℚ)
    (ms : List PoolMember) :
    update_scores b F (update_scores b F ms) = update_scores b F ms := by
  by_cases he : ((ms.map (·.metrics)).filter (required_ok b)).isEmpty
  · have h1 : update_scores b F ms = ms := by
      simp only [update_scores]
      rw [if_pos he]
    rw [h1]
    exact h1
  · have h1 : update_scores b F ms
        = write_scores b ms
            (F (((ms.map (·.metrics)).filter (required_ok b)).filterMap (·.waiting_queue))
               (((ms.map (·.metrics)).filter (required_ok b)).filterMap (·.cache_usage))
               (((ms.map (·.metrics)).filter (required_ok b)).filterMap (·.running_req))) := by
      simp only [update_scores]
      rw [if_neg he]
    rw [h1]
    simp only [update_scores, write_scores_metrics]
    rw [if_neg he]
    exact write_scores_idem b ms _

/-- C9: For every algorithm mode and every pool, running the score
calculator twice with unchanged member metrics yields the same pool
state as running it once: every algorithm computes the new scores purely
from the members' metric vectors, which the update does not touch. -/
theorem c9_calculator_idempotent (ops : RealOps) (mode : ModeConfig) (pool p' : Pool)
    (h : calculate_pool_scores ops mode pool = some p') :
    calculate_pool_scores ops mode p' = some p' := by
  unfold calculate_pool_scores at h ⊢
  by_cases hemp : pool.members.isEmpty = true
  · rw [if_pos hemp] at h
    injection h with h'
    subst h'
    rw [if_pos hemp]
  · rw [if_neg hemp] at h
    cases hsf : scoreFnFor ops mode with
    | none => rw [hsf] at h; cases h
    | some nf =>
      rw [hsf] at h
      injection h with h'
      subst h'
      have hne : ¬ (({ pool with
          members := update_scores nf.1 nf.2 pool.members } : Pool).members.isEmpty
            = true) := by
        intro habs
        apply hemp
        have hlen := update_scores_length nf.1 nf.2 pool.members
        rw [List.isEmpty_iff_length_eq_zero] at habs ⊢
        dsimp only at habs
        omega
      rw [if_neg hne]
      dsimp only
      rw [update_scores_idem nf.1 nf.2 pool.members]

/-- C9 witness: a concrete `s1` run reaches `s1DemoResult`, and a second
run on `s1DemoResult` leaves it unchanged. -/
theorem c9_calculator_idempotent_witness :
    calculate_pool_scores ops0 s1DemoMode s1DemoPool = some s1DemoResult ∧
    calculate_pool_scores ops0 s1DemoMode s1DemoResult = some s1DemoResult := by
  have h : calculate_pool_scores ops0 s1DemoMode s1DemoPool = some s1DemoResult := by
    simp +decide [calculate_pool_scores, scoreFnFor, algoOfName, scoreFnForAlgo,
      s1DemoMode, s1DemoPool, s1DemoMember, s1DemoResult, update_scores,
      write_scores, required_ok, s1Vec, min_max_normalize, clamp01,
      mkPoolMember, poolFromFetch, Metrics.empty]
    norm_num
  exact ⟨h, c9_calculator_idempotent ops0 s1DemoMode s1DemoPool s1DemoResult h⟩

lemma mem_filter_pos {members : List PoolMember} {m : PoolMember}
    (hm : m ∈ members.filter (fun m => decide (0 < m.score))) : 0 < m.score := by
  have := List.of_mem_filter hm
  simpa using this

lemma sum_scores_nonneg (l : List PoolMember) (hpos : ∀ m ∈ l, 0 < m.score) :
    0 ≤ (l.map (·.score)).sum := by
  apply List.sum_nonneg
  intro x hx
  obtain ⟨m, hm, rfl⟩ := List.mem_map.1 hx
  exact le_of_lt (hpos m hm)

lemma sum_scores_pos (v : PoolMember) (vs : List PoolMember)
    (hpos : ∀ m ∈ v :: vs, 0 < m.score) :
    0 < ((v :: vs).map (·.score)).sum := by
  rw [List.map_cons, List.sum_cons]
  have h1 : 0 < v.score := hpos v (List.mem_cons_self _ _)
  have h2 : 0 ≤ (vs.map (·.score)).sum :=
    sum_scores_nonneg vs (fun m hm => hpos m (List.mem_cons_of_mem _ hm))
  linarith

/-- The member walk of `_weighted_random_choice` agrees with the
"first member whose cumulative interval contains the random point"
reading, with the two boundary amendments of the source: the last
interval is right-closed, and a point beyond the total yields `none`
(the loop's safety fallback). -/
lemma choiceGo_eq_find (rp : ℚ) :
    ∀ (l : List PoolMember) (cum : ℚ), (∀ m ∈ l, 0 < m.score) → cum ≤ rp →
      choiceGo rp cum l =
        match (cumIntervals cum l).find? (intervalHit rp) with
        | some x => some x.1
        | none =>
          if rp = cum + (l.map (·.score)).sum then l.getLast? else none := by
  intro l
  induction l with
  | nil =>
    intro cum hpos hcum
    simp [choiceGo, cumIntervals]
  | cons m tail ih =>
    intro cum hpos hcum
    cases tail with
    | nil =>
      by_cases hlt : rp < cum + m.score
      · have hcond : intervalHit rp (m, cum, cum + m.score) = true := by
          simp [intervalHit, hcum, hlt]
        rw [cumIntervals, cumIntervals, List.find?_cons_of_pos _ hcond]
        simp [choiceGo, le_of_lt hlt]
      · have hcond : ¬ (intervalHit rp (m, cum, cum + m.score) = true) := by
          simp [intervalHit, hlt]
        rw [cumIntervals, cumIntervals, List.find?_cons_of_neg _ hcond]
        by_cases heq : rp = cum + m.score
        · simp [choiceGo, heq]
        · have hgt : ¬ rp ≤ cum + m.score := by
            rcases lt_or_eq_of_le (α := ℚ) (not_lt.1 hlt) with h | h
            · exact not_le.2 h
            · exact absurd h.symm heq
          simp [choiceGo, hgt, heq]
    | cons m2 rest =>
      by_cases hcond : cum ≤ rp ∧ rp < cum + m.score
      · have hc : intervalHit rp (m, cum, cum + m.score) = true := by
          simp [intervalHit, hcond.1, hcond.2]
        rw [cumIntervals, List.find?_cons_of_pos _ hc]
        simp [choiceGo, hcond]
      · have hc : ¬ (intervalHit rp (m, cum, cum + m.score) = true) := by
          simp only [intervalHit, decide_eq_true_eq]
          exact hcond
        rw [cumIntervals, List.find?_cons_of_neg _ hc]
        have hge : cum + m.score ≤ rp := by
          rcases not_and_or.1 hcond with h | h
          · exact absurd hcum h
          · exact not_lt.1 h
        have htailpos : ∀ x ∈ m2 :: rest, 0 < x.score :=
          fun x hx => hpos x (List.mem_cons_of_mem _ hx)
        have := ih (cum + m.score) htailpos hge
        rw [choiceGo, if_neg hcond, this]
        have hsum : cum + ((m :: m2 :: rest).map (·.score)).sum
            = (cum + m.score) + ((m2 :: rest).map (·.score)).sum := by
          rw [List.map_cons, List.sum_cons]
          ring
        rw [List.getLast?_cons_cons, hsum]

/-- When the point lies strictly inside the total interval, the walk
always finds a member. -/
lemma find_cumIntervals_isSome (rp : ℚ) :
    ∀ (l : List PoolMember) (cum : ℚ), (∀ m ∈ l, 0 < m.score) → cum ≤ rp →
      rp < cum + (l.map (·.score)).sum →
      ((cumIntervals cum l).find? (intervalHit rp)).isSome := by
  intro l
  induction l with
  | nil =>
    intro cum hpos hcum hlt
    simp at hlt
    linarith
  | cons m tail ih =>
    intro cum hpos hcum hlt
    by_cases hm : rp < cum + m.score
    · have hc : intervalHit rp (m, cum, cum + m.score) = true := by
        simp [intervalHit, hcum, hm]
      rw [cumIntervals, List.find?_cons_of_pos _ hc]
      rfl
    · have hc : ¬ (intervalHit rp (m, cum, cum + m.score) = true) := by
        simp [intervalHit, hm]
      rw [cumIntervals, List.find?_cons_of_neg _ hc]
      have htailpos : ∀ x ∈ tail, 0 < x.score :=
        fun x hx => hpos x (List.mem_cons_of_mem _ hx)
      apply ih (cum + m.score) htailpos (not_lt.1 hm)
      rw [List.map_cons, List.sum_cons] at hlt
      linarith

/-- C3: Under any interpretation of the two random draws, for every
uniform draw `u ∈ [0, 1]` the selector behaves exactly as specified:
members with `score ≤ 0` are dropped; no survivor → no member; a single
survivor is returned outright; otherwise, with `t = u·W`, the first
member in list order whose cumulative interval satisfies
`C_(k-1) ≤ t < C_k` is returned, the last member also when `t = W`. -/
theorem c3_selector_matches_spec (pick : List PoolMember → Option PoolMember)
    (u : ℚ) (members : List PoolMember) (h0 : 0 ≤ u) (h1 : u ≤ 1) :
    select pick u members = selectSpec u members := by
  by_cases hm : members.isEmpty = true
  · have : members = [] := List.isEmpty_iff.1 hm
    subst this
    rfl
  · rw [select, if_neg hm, selectSpec]
    cases hv : members.filter (fun m => decide (0 < m.score)) with
    | nil => rfl
    | cons v vs =>
      have hpos : ∀ x ∈ v :: vs, 0 < x.score := by
        intro x hx
        rw [← hv] at hx
        exact mem_filter_pos hx
      cases vs with
      | nil => rfl
      | cons v2 vs2 =>
        have hne : ¬ ((v :: v2 :: vs2 : List PoolMember).isEmpty = true) := by simp
        have hlen : ¬ ((v :: v2 :: vs2 : List PoolMember).length = 1) := by
          simp
        rw [if_neg hne, if_neg hlen]
        have hW : 0 < ((v :: v2 :: vs2).map (·.score)).sum := sum_scores_pos _ _ hpos
        rw [weighted_random_choice, if_neg (not_le.2 hW)]
        dsimp only
        have hrp0 : 0 ≤ u * ((v :: v2 :: vs2).map (·.score)).sum :=
          mul_nonneg h0 (le_of_lt hW)
        have hrpW : u * ((v :: v2 :: vs2).map (·.score)).sum
            ≤ ((v :: v2 :: vs2).map (·.score)).sum := by nlinarith
        rw [choiceGo_eq_find _ (v :: v2 :: vs2) 0 hpos hrp0]
        cases hfind : (cumIntervals 0 (v :: v2 :: vs2)).find?
            (intervalHit (u * ((v :: v2 :: vs2).map (·.score)).sum)) with
        | some x => rfl
        | none =>
          by_cases heq : u * ((v :: v2 :: vs2).map (·.score)).sum
              = ((v :: v2 :: vs2).map (·.score)).sum
          · have heq0 : u * ((v :: v2 :: vs2).map (·.score)).sum
                = 0 + ((v :: v2 :: vs2).map (·.score)).sum := by
              rw [zero_add]; exact heq
            rw [if_pos heq0, if_pos heq]
            cases hlast : (v :: v2 :: vs2 : List PoolMember).getLast? with
            | none => simp at hlast
            | some lastm => rfl
          · exfalso
            have hlt : u * ((v :: v2 :: vs2).map (·.score)).sum
                < 0 + ((v :: v2 :: vs2).map (·.score)).sum := by
              rw [zero_add]
              exact lt_of_le_of_ne hrpW heq
            have := find_cumIntervals_isSome _ (v :: v2 :: vs2) 0 hpos hrp0 hlt
            rw [hfind] at this
            cases this

def selDemoM1 : PoolMember :=
  { mkPoolMember "10.0.0.7" 8000 "Common" with score := 1 }

def selDemoM2 : PoolMember :=
  { mkPoolMember "10.0.0.8" 8000 "Common" with score := 3 }

def selDemoMembers : List PoolMember := [selDemoM1, selDemoM2]

/-- C3 witness: the selector equivalence at `u = 1/2` on scores `1, 3`;
the draw `t = 2` lands in the second member's interval `[1, 4)`. -/
theorem c3_selector_matches_spec_witness :
    select pickFirst (1/2) selDemoMembers = selectSpec (1/2) selDemoMembers ∧
    select pickFirst (1/2) selDemoMembers = some selDemoM2 := by
  refine ⟨c3_selector_matches_spec pickFirst (1/2) selDemoMembers
    (by norm_num) (by norm_num), ?_⟩
  norm_num [select, weighted_random_choice, choiceGo, selDemoMembers,
    selDemoM1, selDemoM2, mkPoolMember, List.filter]

end Sched
